import Mathlib

/-!
A shallow embedding of the von-Neumann machine emulator (`misc.py`,
`machine.py`): the signed-magnitude `Number` truncation (including the
`math.copysign` round-trip through IEEE-754 double precision), gated
registers, the bus-OR arithmetic unit, instruction and data memories with
the memory-mapped device window, the control unit's fetch/decode/execute
step, and `Machine` construction.  Theorems at the end settle the spec
claims C1-C10 against this embedding.
-/

namespace Vm

/-- Error kinds mirroring the Python exceptions that can escape the
emulator's methods. -/
inductive Err where
  | halted        -- HaltedError
  | instrErr      -- InstructionError
  | indexErr      -- IndexError (list index out of range)
  | invalidAddr   -- RuntimeError (invalid address in address register)
  | typeErr       -- TypeError (e.g. abs(None), parse non-int token)
  | valueErr      -- ValueError (chr of a negative value)
  | overflow      -- OverflowError (int too large to convert to float)
  | keyErr        -- KeyError (missing instruction dict key)
  | assertFail    -- AssertionError (memory size asserts)
  deriving DecidableEq, Repr

/-! ## Numbers (`misc.Number`)

`Number.set_value` stores `int(math.copysign(abs(v) & (2**bit_depth - 1), v))`.
`math.copysign` converts both of its arguments to IEEE-754 doubles, so the
masked magnitude is rounded to 53 significant bits (round-to-nearest,
ties-to-even) and a magnitude that rounds to `2^1024` or beyond raises
`OverflowError`. -/

/-- The sign `math.copysign` transfers from an integer: `-1` for negative
values, `+1` otherwise (a Python non-negative int converts to a positive
float, `int 0` to `+0.0`). -/
def mySign (v : Int) : Int := if v < 0 then -1 else 1

/-- `abs(v) & (2 ** bd - 1)`: the stored magnitude before float rounding. -/
def truncMag (bd : Nat) (v : Int) : Nat := v.natAbs &&& (2 ^ bd - 1)

/-- Pure signed-magnitude truncation (exact, no float rounding): the value
`set_value` stores whenever the masked magnitude is below `2^53`. -/
def trunc (bd : Nat) (v : Int) : Int := mySign v * (truncMag bd v : Int)

/-- 16-bit signed-magnitude truncation; every machine register and data
cell has `bit_depth = 16`. -/
def trunc16 (v : Int) : Int := trunc 16 v

/-- Rounding a natural number to the nearest IEEE-754 double
(53 significant bits, ties to even), as Python's `float(n)` does. -/
def pyFloatRound (n : Nat) : Nat :=
  if n < 2 ^ 53 then n
  else
    let e := Nat.log2 n - 52
    let q := n / 2 ^ e
    let r := n % 2 ^ e
    let half := 2 ^ (e - 1)
    if half < r ∨ (r = half ∧ q % 2 = 1) then (q + 1) * 2 ^ e else q * 2 ^ e

/-- Whether `float(n)` succeeds: the rounded value must stay below `2^1024`,
otherwise Python raises `OverflowError: int too large to convert to float`. -/
def floatConvertible (n : Nat) : Bool := pyFloatRound n < 2 ^ 1024

/-- `Number.set_value(v)` for a `bit_depth`-bit number:
`int(math.copysign(abs(v) & (2**bit_depth - 1), v))`, with both `copysign`
arguments converted to doubles (hence rounded, and fallible). -/
def pySetValue (bd : Nat) (v : Int) : Except Err Int :=
  if floatConvertible (truncMag bd v) && floatConvertible v.natAbs then
    .ok (mySign v * (pyFloatRound (truncMag bd v) : Int))
  else
    .error .overflow

/-! ### Basic number lemmas -/

theorem truncMag_eq_mod (bd : Nat) (v : Int) :
    truncMag bd v = v.natAbs % 2 ^ bd := by
  unfold truncMag
  exact Nat.and_pow_two_sub_one_eq_mod _ bd

theorem truncMag_lt (bd : Nat) (v : Int) : truncMag bd v < 2 ^ bd := by
  rw [truncMag_eq_mod]
  exact Nat.mod_lt _ (Nat.pos_pow_of_pos bd (by norm_num))

theorem pyFloatRound_small {n : Nat} (h : n < 2 ^ 53) : pyFloatRound n = n := by
  unfold pyFloatRound
  rw [if_pos h]

theorem floatConvertible_small {n : Nat} (h : n < 2 ^ 53) :
    floatConvertible n = true := by
  unfold floatConvertible
  rw [pyFloatRound_small h]
  simp only [decide_eq_true_eq]
  calc n < 2 ^ 53 := h
    _ ≤ 2 ^ 1024 := Nat.pow_le_pow_right (by norm_num) (by norm_num)

/-- For 16-bit numbers the float round-trip is exact: `set_value` reduces to
pure signed-magnitude truncation, failing only when the sign-carrying
argument itself cannot be converted to a double. -/
theorem pySetValue_16 (v : Int) :
    pySetValue 16 v =
      if floatConvertible v.natAbs then .ok (trunc16 v) else .error .overflow := by
  have hm : truncMag 16 v < 2 ^ 53 :=
    lt_of_lt_of_le (truncMag_lt 16 v) (Nat.pow_le_pow_right (by norm_num) (by norm_num))
  unfold pySetValue
  rw [floatConvertible_small hm, pyFloatRound_small hm]
  by_cases h : floatConvertible v.natAbs
  · simp [h, trunc16, trunc]
  · simp only [Bool.not_eq_true] at h
    simp [h]

/-- Values whose magnitude is at most `2^17` (every register content, bus
value and arithmetic intermediate in the machine) convert to doubles
exactly. -/
theorem floatConvertible_of_le {n : Nat} (h : n ≤ 2 ^ 17) :
    floatConvertible n = true :=
  floatConvertible_small (lt_of_le_of_lt h (by norm_num))

theorem pySetValue_16_small {v : Int} (h : v.natAbs ≤ 2 ^ 17) :
    pySetValue 16 v = .ok (trunc16 v) := by
  rw [pySetValue_16, floatConvertible_of_le h]
  simp

theorem natAbs_trunc (bd : Nat) (v : Int) : (trunc bd v).natAbs = truncMag bd v := by
  unfold trunc mySign
  by_cases h : v < 0 <;> simp [h]

theorem trunc16_natAbs_le (v : Int) : (trunc16 v).natAbs ≤ 65535 := by
  rw [trunc16, natAbs_trunc]
  have := truncMag_lt 16 v
  omega

/-- A value accepted by a 16-bit `set_value` is already 16-bit normalised. -/
theorem pySetValue_16_norm {d v : Int} (hv : pySetValue 16 d = .ok v) :
    v.natAbs ≤ 65535 := by
  rw [pySetValue_16] at hv
  by_cases hc : floatConvertible d.natAbs
  · rw [if_pos hc] at hv
    cases hv
    exact trunc16_natAbs_le d
  · simp only [Bool.not_eq_true] at hc
    rw [hc] at hv
    simp at hv

theorem trunc_of_natAbs_lt {bd : Nat} {v : Int} (h : v.natAbs < 2 ^ bd) :
    trunc bd v = v := by
  unfold trunc mySign
  rw [truncMag_eq_mod, Nat.mod_eq_of_lt h]
  by_cases hv : v < 0
  · simp only [hv, if_true]
    omega
  · simp only [hv, if_false]
    omega

theorem trunc16_of_le {v : Int} (h : v.natAbs ≤ 65535) : trunc16 v = v :=
  trunc_of_natAbs_lt (by omega)

theorem trunc16_idem (v : Int) : trunc16 (trunc16 v) = trunc16 v :=
  trunc16_of_le (trunc16_natAbs_le v)

theorem trunc16_modEq (v : Int) : trunc16 v ≡ v [ZMOD 65536] := by
  unfold trunc16 trunc mySign
  rw [truncMag_eq_mod]
  have h1 : ((v.natAbs % 2 ^ 16 : Nat) : Int) = (v.natAbs : Int) % 65536 := by
    push_cast
    norm_num
  by_cases hv : v < 0
  · simp only [hv, if_true]
    rw [h1]
    have : (v.natAbs : Int) = -v := by omega
    rw [this]
    unfold Int.ModEq
    omega
  · simp only [hv, if_false]
    rw [h1]
    have : (v.natAbs : Int) = v := by omega
    rw [this]
    unfold Int.ModEq
    omega

/-! ## Python bitwise OR on `int` (two's complement, arbitrary precision) -/

/-- Python's `x | y` on arbitrary-precision integers.  Negative numbers act
as infinite two's-complement bit strings: `negSucc n` has the bit pattern of
the complement of `n`. -/
def pyOr : Int → Int → Int
  | .ofNat m, .ofNat n => .ofNat (m ||| n)
  | .ofNat m, .negSucc n => .negSucc (n ^^^ (n &&& m))
  | .negSucc m, .ofNat n => .negSucc (m ^^^ (m &&& n))
  | .negSucc m, .negSucc n => .negSucc (m &&& n)

theorem pyOr_zero_left (v : Int) : pyOr 0 v = v := by
  cases v with
  | ofNat n => show pyOr (.ofNat 0) (.ofNat n) = _; simp [pyOr]
  | negSucc n => show pyOr (.ofNat 0) (.negSucc n) = _; simp [pyOr]

theorem pyOr_zero_right (v : Int) : pyOr v 0 = v := by
  cases v with
  | ofNat n => show pyOr (.ofNat n) (.ofNat 0) = _; simp [pyOr]
  | negSucc n => show pyOr (.negSucc n) (.ofNat 0) = _; simp [pyOr]

/-! ## Python list indexing

A Python list of length `len` accepts indices in `[-len, len)`; a negative
index `i` denotes element `len + i`; anything else raises `IndexError`.
The fixed-length memories are modelled as total functions from `Nat`
together with their known length. -/

def pyListGet {α : Type} (f : Nat → α) (len : Nat) (i : Int) : Except Err α :=
  if 0 ≤ i ∧ i < (len : Int) then .ok (f i.toNat)
  else if -(len : Int) ≤ i ∧ i < 0 then .ok (f (i + len).toNat)
  else .error .indexErr

def pyUpdate {α : Type} (f : Nat → α) (k : Nat) (a : α) : Nat → α :=
  fun n => if n = k then a else f n

def pyListSet {α : Type} (f : Nat → α) (len : Nat) (i : Int) (a : α) :
    Except Err (Nat → α) :=
  if 0 ≤ i ∧ i < (len : Int) then .ok (pyUpdate f i.toNat a)
  else if -(len : Int) ≤ i ∧ i < 0 then .ok (pyUpdate f (i + len).toNat a)
  else .error .indexErr

/-! ## Machine data model

Instruction records (`InstructionsMemory` docstring): a dict with keys
`operation`, `fetch_type`, `data`; the latter two may be absent (accessing
an absent key raises `KeyError`).  An empty instruction cell is `none`. -/

structure Instr where
  operation : String
  fetch_type : Option String := none
  data : Option Int := none
  deriving DecidableEq, Repr

/-- `misc.Register`: a `Number` payload plus the two bus gates.  All four
machine registers have `bit_depth = 16`. -/
structure Reg where
  num : Int := 0
  readO : Bool := false
  writeO : Bool := false
  deriving DecidableEq, Repr

/-- `Register.read`: the stored number when the read gate is open, a fresh
zero otherwise. -/
def Reg.read (r : Reg) : Int := if r.readO then r.num else 0

/-- `Register.write`: latch `set_value(n)` when the write gate is open,
silently drop otherwise.  Every value a register is asked to latch in the
machine is an existing 16-bit `Number` (magnitude `≤ 2^17`), for which
`set_value` is exactly `trunc16`. -/
def Reg.write (r : Reg) (v : Int) : Reg :=
  if r.writeO then { r with num := trunc16 v } else r

/-- The whole machine state: the four registers, both memories (fixed-size
arrays modelled as functions out of `Nat` with length `2^16`), the two
file-backed devices (input buffer with its cursor, output sink), and the
control unit's own fields.  A data cell holds `none` when Python `None` has
been stored into it (the output device's `read()` returns `None`). -/
structure MState where
  acc : Reg
  addrReg : Reg
  dataReg : Reg
  ip : Reg
  instrMem : Nat → Option Instr
  dataMem : Nat → Option Int
  inputBuf : List Int
  inputPtr : Nat
  output : List Int
  instruction : Option Instr := none
  lockInc : Bool := false
  halted : Bool := false

/-- All eight bus gates closed: the state in which every control-unit step
begins during a normal run. -/
def gatesClosed (s : MState) : Prop :=
  s.acc.readO = false ∧ s.acc.writeO = false ∧
  s.addrReg.readO = false ∧ s.addrReg.writeO = false ∧
  s.dataReg.readO = false ∧ s.dataReg.writeO = false ∧
  s.ip.readO = false ∧ s.ip.writeO = false

instance (s : MState) : Decidable (gatesClosed s) := by
  unfold gatesClosed
  infer_instance

/-- Register contents and memory/device payloads are `set_value`-normalised
16-bit numbers.  Every state the emulator actually constructs satisfies
this; it guarantees that each `set_value` call traced by the model receives
arguments whose float conversion is exact (magnitudes stay below `2^53`)
so the total `trunc16` is faithful. -/
def wf (s : MState) : Prop :=
  s.acc.num.natAbs ≤ 65535 ∧ s.addrReg.num.natAbs ≤ 65535 ∧
  s.dataReg.num.natAbs ≤ 65535 ∧ s.ip.num.natAbs ≤ 65535 ∧
  (∀ n v, s.dataMem n = some v → v.natAbs ≤ 65535) ∧
  (∀ v ∈ s.inputBuf, v.natAbs ≤ 65535)

/-! ## ALU (`machine.ALU.perform`) -/

/-- `ALU.perform(signals)` with the three possible signals.  Bus A is the
bitwise OR of the accumulator's and instruction pointer's gated reads, bus B
of the data and address registers' gated reads; the result
`res + left + right` goes through one 16-bit `Number` truncation per
addition and is broadcast to all four registers (latched only where the
write gate is open). -/
def aluPerform (inc invL invR : Bool) (s : MState) : MState :=
  let left0 := trunc16 (pyOr s.acc.read s.ip.read)
  let right0 := trunc16 (pyOr s.dataReg.read s.addrReg.read)
  let res0 : Int := if inc then trunc16 (0 + 1) else 0
  let left := if invL then trunc16 (-left0) else left0
  let right := if invR then trunc16 (-right0) else right0
  let res := trunc16 (trunc16 (trunc16 (res0 + left) + right))
  { s with acc := s.acc.write res, ip := s.ip.write res,
           addrReg := s.addrReg.write res, dataReg := s.dataReg.write res }

/-! ## Devices (`device.py`) -/

/-- `FileInputDevice.read`: next buffered value, or a fresh zero once the
buffer is exhausted. -/
def inputDevRead (s : MState) : Int × MState :=
  if s.inputBuf.length ≤ s.inputPtr then (0, s)
  else (s.inputBuf.getD s.inputPtr 0, { s with inputPtr := s.inputPtr + 1 })

/-- `FileOutputDevice.write`: `chr(n.value)` appended to the sink;
`chr` demands a code point in `[0, 0x110000)`. -/
def outputDevWrite (v : Int) (s : MState) : Except Err Unit × MState :=
  if 0 ≤ v ∧ v < 1114112 then (.ok (), { s with output := s.output ++ [v] })
  else (.error .valueErr, s)

/-! ## DataMemory -/

/-- `self._data_reg.write(read)` at the end of `DataMemory.read`: a no-op
when the data register's write gate is closed; otherwise `set_value` of the
cell, which raises `TypeError` when the cell holds Python `None`. -/
def dataRegLatch (c : Option Int) (s : MState) : Except Err Unit × MState :=
  if s.dataReg.writeO then
    match c with
    | some v => (.ok (), { s with dataReg := { s.dataReg with num := trunc16 v } })
    | none => (.error .typeErr, s)
  else (.ok (), s)

/-- `DataMemory.read`: error on a negative gated address; addresses below 4
consult the device list first (only slots 0 and 1 are populated, so 2 and 3
raise `IndexError`) and overwrite the cell with the device's answer; then
the addressed cell is copied into the data register. -/
def dataMemRead (s : MState) : Except Err Unit × MState :=
  let addr := s.addrReg.read
  if addr < 0 then (.error .invalidAddr, s)
  else if addr < 4 then
    if addr = 0 then
      let p := inputDevRead s
      let s1 := { p.2 with dataMem := pyUpdate p.2.dataMem 0 (some p.1) }
      match pyListGet s1.dataMem 65536 addr with
      | .ok c => dataRegLatch c s1
      | .error e => (.error e, s1)
    else if addr = 1 then
      -- FileOutputDevice.read() is `pass`: it returns Python None.
      let s1 := { s with dataMem := pyUpdate s.dataMem 1 none }
      match pyListGet s1.dataMem 65536 addr with
      | .ok c => dataRegLatch c s1
      | .error e => (.error e, s1)
    else (.error .indexErr, s)
  else
    match pyListGet s.dataMem 65536 addr with
    | .ok c => dataRegLatch c s
    | .error e => (.error e, s)

/-- `DataMemory.write`: error on a negative gated address; the payload is a
fresh `Number` built from the data register's gated read; addresses below 4
forward it to the device first (input device writes are `pass`, slots 2 and
3 raise `IndexError`); the cell is then overwritten unconditionally. -/
def dataMemWrite (s : MState) : Except Err Unit × MState :=
  let addr := s.addrReg.read
  if addr < 0 then (.error .invalidAddr, s)
  else
    let toWrite := trunc16 s.dataReg.read
    let afterDev : Except Err Unit × MState :=
      if addr < 4 then
        if addr = 0 then (.ok (), s)
        else if addr = 1 then outputDevWrite toWrite s
        else (.error .indexErr, s)
      else (.ok (), s)
    match afterDev with
    | (.error e, s1) => (.error e, s1)
    | (.ok _, s1) =>
      match pyListSet s1.dataMem 65536 addr (some toWrite) with
      | .ok f => (.ok (), { s1 with dataMem := f })
      | .error e => (.error e, s1)

/-! ## ControlUnit -/

/-- The instruction-memory cell the fetch will read: `InstructionsMemory`
indexes its length-`2^16` list with the instruction pointer's value, read
through the just-opened read gate.  A negative pointer wraps from the end,
Python-list style. -/
def instrCell (s : MState) : Except Err (Option Instr) :=
  pyListGet s.instrMem 65536 s.ip.num

/-- `ControlUnit._fetch_instruction`: open the instruction pointer's read
gate, read the addressed cell into `self.instruction`, close the gate.  On
an `IndexError` the gate stays open (the exception propagates). -/
def fetchInstruction (s : MState) : Except Err Unit × MState :=
  let s1 := { s with ip := { s.ip with readO := true } }
  match pyListGet s1.instrMem 65536 s1.ip.read with
  | .ok c => (.ok (), { s1 with instruction := c, ip := { s1.ip with readO := false } })
  | .error e => (.error e, s1)

/-- Exception-propagating sequencing: run the continuation after a
successful data-memory read, propagate the error (with its partial state)
otherwise. -/
def memReadThen (k : MState → Except Err Unit × MState) (s : MState) :
    Except Err Unit × MState :=
  match dataMemRead s with
  | (.ok _, s') => k s'
  | (.error e, s') => (.error e, s')

/-- Same sequencing for a data-memory write. -/
def memWriteThen (k : MState → Except Err Unit × MState) (s : MState) :
    Except Err Unit × MState :=
  match dataMemWrite s with
  | (.ok _, s') => k s'
  | (.error e, s') => (.error e, s')

/-- The first half of `_fetch_from_mem`: open the address register's write
gate (it is never closed again in this helper), latch the target address
(`value`, or `addr_reg.value + value` for relative mode), open its read
gate. -/
def fetchAddrState (rel : Bool) (v : Int) (s : MState) : MState :=
  let s1 := { s with addrReg := { s.addrReg with writeO := true } }
  let addr := if rel then trunc16 (s1.addrReg.num + v) else v
  let s2 := { s1 with addrReg := s1.addrReg.write addr }
  { s2 with addrReg := { s2.addrReg with readO := true } }

/-- `_fetch_from_mem` inside `_fetch_data`: set up the address register,
perform the data-memory read, close the address register's read gate. -/
def fetchFromMem (rel : Bool) (v : Int) (s : MState) : Except Err Unit × MState :=
  memReadThen (fun s4 => (.ok (), { s4 with addrReg := { s4.addrReg with readO := false } }))
    (fetchAddrState rel v s)

/-- The `fetch_type` dispatch of `_fetch_data`, run with the data
register's write gate already opened. -/
def fetchBranch (ft : String) (v : Int) (s1 : MState) : Except Err Unit × MState :=
  if ft = "const" then
    (.ok (), { s1 with dataReg := s1.dataReg.write v })
  else if ft = "const_rel" then
    (.ok (), { s1 with dataReg := s1.dataReg.write (trunc16 (s1.ip.num + v)) })
  else if ft = "acc" then
    let s2 := { s1 with acc := { s1.acc with readO := true } }
    let s3 := aluPerform false false false s2
    (.ok (), { s3 with acc := { s3.acc with readO := false } })
  else if ft = "abs_mem" then fetchFromMem false v s1
  else if ft = "rel_mem" then fetchFromMem true v s1
  else (.error .instrErr, s1)

/-- Closing `data_reg`'s write gate at the end of `_fetch_data` (skipped
when the branch raised: the exception propagates with the gate open). -/
def closeDataW : Except Err Unit × MState → Except Err Unit × MState
  | (.ok _, s4) => (.ok (), { s4 with dataReg := { s4.dataReg with writeO := false } })
  | (.error e, s4) => (.error e, s4)

/-- `ControlUnit._fetch_data`: build `value = Number(16, instruction['data'])`,
open the data register's write gate, dispatch on `fetch_type`, close the
gate. -/
def fetchData (s : MState) : Except Err Unit × MState :=
  match s.instruction with
  | none => (.error .typeErr, s)
  | some i =>
    match i.data with
    | none => (.error .keyErr, s)
    | some d =>
      match pySetValue 16 d with
      | .error e => (.error e, s)
      | .ok v =>
        match i.fetch_type with
        | none => (.error .keyErr, s)
        | some ft =>
          closeDataW (fetchBranch ft v { s with dataReg := { s.dataReg with writeO := true } })

/-- Exception-propagating sequencing over the operand fetch, shared by
`_add`, `_ld`, `_sv` and `_jmp`. -/
def withFetch (k : MState → Except Err Unit × MState) (s : MState) :
    Except Err Unit × MState :=
  match fetchData s with
  | (.ok _, s1) => k s1
  | (.error e, s1) => (.error e, s1)

/-- `ControlUnit._inc`: accumulator `+1` through the register-transfer
convention. -/
def incOp (s : MState) : MState :=
  let s1 := { s with acc := { s.acc with readO := true } }
  let s2 := { s1 with acc := { s1.acc with writeO := true } }
  let s3 := aluPerform true false false s2
  let s4 := { s3 with acc := { s3.acc with readO := false } }
  { s4 with acc := { s4.acc with writeO := false } }

/-- `ControlUnit._inv`: accumulator negation via the `inv_left` signal. -/
def invOp (s : MState) : MState :=
  let s1 := { s with acc := { s.acc with readO := true } }
  let s2 := { s1 with acc := { s1.acc with writeO := true } }
  let s3 := aluPerform false true false s2
  let s4 := { s3 with acc := { s3.acc with readO := false } }
  { s4 with acc := { s4.acc with writeO := false } }

/-- The pure tail of `ControlUnit._add` after the operand fetch. -/
def addTail (invR : Bool) (s : MState) : MState :=
  let s1 := { s with dataReg := { s.dataReg with readO := true } }
  let s2 := { s1 with acc := { s1.acc with readO := true } }
  let s3 := { s2 with acc := { s2.acc with writeO := true } }
  let s4 := aluPerform false false invR s3
  let s5 := { s4 with dataReg := { s4.dataReg with readO := false } }
  let s6 := { s5 with acc := { s5.acc with writeO := false } }
  { s6 with acc := { s6.acc with readO := false } }

/-- `ControlUnit._add` (and `_sub` via `inv=True`). -/
def addOp (invR : Bool) (s : MState) : Except Err Unit × MState :=
  withFetch (fun s1 => (.ok (), addTail invR s1)) s

/-- `ControlUnit._data_reg_to_addr_reg`. -/
def dataRegToAddrReg (s : MState) : MState :=
  let s1 := { s with dataReg := { s.dataReg with readO := true } }
  let s2 := { s1 with addrReg := { s1.addrReg with writeO := true } }
  let s3 := aluPerform false false false s2
  let s4 := { s3 with dataReg := { s3.dataReg with readO := false } }
  { s4 with addrReg := { s4.addrReg with writeO := false } }

/-- The pure data_reg → acc transfer ending `ControlUnit._ld`. -/
def dataRegToAcc (s : MState) : MState :=
  let s1 := { s with dataReg := { s.dataReg with readO := true } }
  let s2 := { s1 with acc := { s1.acc with writeO := true } }
  let s3 := aluPerform false false false s2
  let s4 := { s3 with dataReg := { s3.dataReg with readO := false } }
  { s4 with acc := { s4.acc with writeO := false } }

/-- The state from which `_ld` issues its memory read: target address
latched, address register read-gated, data register write-gated. -/
def ldAddrState (s1 : MState) : MState :=
  let s2 := dataRegToAddrReg s1
  let s3 := { s2 with addrReg := { s2.addrReg with readO := true } }
  { s3 with dataReg := { s3.dataReg with writeO := true } }

/-- Closing the gates `_ld` opened around its memory read. -/
def ldCloseState (s5 : MState) : MState :=
  let s6 := { s5 with addrReg := { s5.addrReg with readO := false } }
  { s6 with dataReg := { s6.dataReg with writeO := false } }

/-- `ControlUnit._ld`. -/
def ldOp (s : MState) : Except Err Unit × MState :=
  withFetch (fun s1 =>
    memReadThen (fun s5 => (.ok (), dataRegToAcc (ldCloseState s5)))
      (ldAddrState s1)) s

/-- The pure acc → data_reg transfer inside `ControlUnit._sv`. -/
def accToDataReg (s : MState) : MState :=
  let s1 := { s with acc := { s.acc with readO := true } }
  let s2 := { s1 with dataReg := { s1.dataReg with writeO := true } }
  let s3 := aluPerform false false false s2
  let s4 := { s3 with acc := { s3.acc with readO := false } }
  { s4 with dataReg := { s4.dataReg with writeO := false } }

/-- The state from which `_sv` issues its memory write: target address
latched, accumulator copied to the data register, both read gates open. -/
def svSetupState (s1 : MState) : MState :=
  let s2 := dataRegToAddrReg s1
  let s3 := accToDataReg s2
  let s4 := { s3 with dataReg := { s3.dataReg with readO := true } }
  { s4 with addrReg := { s4.addrReg with readO := true } }

/-- Closing the gates `_sv` opened around its memory write. -/
def svCloseState (s6 : MState) : MState :=
  let s7 := { s6 with dataReg := { s6.dataReg with readO := false } }
  { s7 with addrReg := { s7.addrReg with readO := false } }

/-- `ControlUnit._sv`. -/
def svOp (s : MState) : Except Err Unit × MState :=
  withFetch (fun s1 =>
    memWriteThen (fun s6 => (.ok (), svCloseState s6)) (svSetupState s1)) s

/-- The pure tail of `ControlUnit._jmp`: set the suppress-advance flag and
transfer data_reg → instruction pointer. -/
def jmpTail (s1 : MState) : MState :=
  let s2 := { s1 with lockInc := true }
  let s3 := { s2 with dataReg := { s2.dataReg with readO := true } }
  let s4 := { s3 with ip := { s3.ip with writeO := true } }
  let s5 := aluPerform false false false s4
  let s6 := { s5 with dataReg := { s5.dataReg with readO := false } }
  { s6 with ip := { s6.ip with writeO := false } }

/-- `ControlUnit._jmp`: fetch the operand, then run the jump transfer. -/
def jmpOp (s : MState) : Except Err Unit × MState :=
  withFetch (fun s1 => (.ok (), jmpTail s1)) s

/-- `ControlUnit._jz`/`_jp`/`_jn`: the accumulator's raw stored value is
tested directly, not through the gated read. -/
def jzOp (s : MState) : Except Err Unit × MState :=
  if s.acc.num = 0 then jmpOp s else (.ok (), s)

def jpOp (s : MState) : Except Err Unit × MState :=
  if 0 < s.acc.num then jmpOp s else (.ok (), s)

def jnOp (s : MState) : Except Err Unit × MState :=
  if s.acc.num < 0 then jmpOp s else (.ok (), s)

/-- `ControlUnit._halt`. -/
def hltOp (s : MState) : MState := { s with halted := true }

/-- `ControlUnit._perform`: a falsy (missing) instruction is silently
skipped; otherwise dispatch on the opcode string, defaulting to
`_invalid_operation`. -/
def performOp (s : MState) : Except Err Unit × MState :=
  match s.instruction with
  | none => (.ok (), s)
  | some i =>
    if i.operation = "INC" then (.ok (), incOp s)
    else if i.operation = "INV" then (.ok (), invOp s)
    else if i.operation = "ADD" then addOp false s
    else if i.operation = "SUB" then addOp true s
    else if i.operation = "LD" then ldOp s
    else if i.operation = "SV" then svOp s
    else if i.operation = "JMP" then jmpOp s
    else if i.operation = "JZ" then jzOp s
    else if i.operation = "JP" then jpOp s
    else if i.operation = "JN" then jnOp s
    else if i.operation = "HLT" then (.ok (), hltOp s)
    else (.error .instrErr, s)

/-- `ControlUnit._next`: unless a jump suppressed it, transfer
`instruction_pointer + 1` into the instruction pointer (both its gates
open, `inc` signal, bus B undriven). -/
def nextOp (s : MState) : MState :=
  if s.lockInc then s
  else
    let s1 := { s with ip := { s.ip with readO := true } }
    let s2 := { s1 with ip := { s1.ip with writeO := true } }
    let s3 := aluPerform true false false s2
    let s4 := { s3 with ip := { s3.ip with readO := false } }
    { s4 with ip := { s4.ip with writeO := false } }

/-- The `self._perform(); self._next()` tail of `step`: on a successful
execute, advance; an exception from the execute propagates. -/
def afterPerform : Except Err Unit × MState → Except Err Unit × MState
  | (.error e, s2) => (.error e, s2)
  | (.ok _, s2) => (.ok (), nextOp s2)

/-- `ControlUnit.step`: fail with the halt signal when halted, else reset
the suppress-advance flag, fetch, execute, advance. -/
def step (s : MState) : Except Err Unit × MState :=
  if s.halted then (.error .halted, s)
  else
    let s0 := { s with lockInc := false }
    match fetchInstruction s0 with
    | (.error e, s1) => (.error e, s1)
    | (.ok _, s1) => afterPerform (performOp s1)

/-! ## Machine construction (`Machine.__init__` / `_parse_initial`) -/

/-- A raw element of the initial record's `data` list: a Python int or a
value of any other type. -/
inductive PyTok where
  | intTok (v : Int)
  | otherTok
  deriving DecidableEq, Repr

/-- `_parse_initial`'s data loop: reject the first non-int token, build
`Number(16, token)` for the rest (the construction itself can overflow on
huge magnitudes). -/
def parseData : List PyTok → Except Err (List Int)
  | [] => .ok []
  | .intTok v :: ts =>
    match pySetValue 16 v with
    | .error e => .error e
    | .ok n =>
      match parseData ts with
      | .ok ns => .ok (n :: ns)
      | .error e => .error e
  | .otherTok :: _ => .error .typeErr

/-- `Machine.__init__`: parse the initial record, then build registers and
memories.  `InstructionsMemory.__init__` asserts
`len(program) < 2 ** 16` when the program list is non-empty, and
`DataMemory.__init__` asserts the same for a non-empty data list; the
remaining cells are padded with `None` / zero `Number`s.  The input device
loads one 16-bit `Number` per character code of the backing file; the
output device starts with an empty sink. -/
def machineBuild (dataList : List Int) (program : List (Option Instr))
    (inputChars : List Nat) : Except Err MState :=
  if program ≠ [] ∧ 65536 ≤ program.length then .error .assertFail
  else if dataList ≠ [] ∧ 65536 ≤ dataList.length then .error .assertFail
  else
    .ok
      { acc := {}, addrReg := {}, dataReg := {}, ip := {},
        instrMem := fun n => (program.getD n none),
        dataMem := fun n => some (dataList.getD n 0),
        inputBuf := inputChars.map (fun c => trunc16 (c : Int)),
        inputPtr := 0, output := [] }

def machineInit (toks : List PyTok) (program : List (Option Instr))
    (inputChars : List Nat) : Except Err MState :=
  match parseData toks with
  | .error e => .error e
  | .ok dataList => machineBuild dataList program inputChars

/-! ## Supporting lemmas -/

theorem trunc16_zero : trunc16 0 = 0 := by decide

theorem log2_eval {n k : Nat} (h1 : 2 ^ k ≤ n) (h2 : n < 2 ^ (k + 1)) :
    Nat.log2 n = k := by
  rw [Nat.log2_eq_log_two]
  exact Nat.log_eq_of_pow_le_of_lt_pow h1 h2

/-- The states a control-unit step starts from in a normal run: a halted
flag that may be set, every gate closed. -/
theorem gatesClosed_def (s : MState) :
    gatesClosed s ↔
      s.acc.readO = false ∧ s.acc.writeO = false ∧
      s.addrReg.readO = false ∧ s.addrReg.writeO = false ∧
      s.dataReg.readO = false ∧ s.dataReg.writeO = false ∧
      s.ip.readO = false ∧ s.ip.writeO = false := Iff.rfl

/-! ## C5 — stepping a halted machine -/

/-- C5: in a halted state `step` raises the halt signal before touching
anything: the error is reported and the state — registers, gates, both
memories, devices and the halted flag — is returned exactly as it was, on
this call and hence on every later one. -/
theorem halted_step_unchanged (s : MState) (h : s.halted = true) :
    step s = (.error .halted, s) := by
  unfold step
  rw [h]
  simp

/-- A concrete halted machine witnessing `halted_step_unchanged`. -/
def haltedDemo : MState :=
  { acc := {}, addrReg := {}, dataReg := {}, ip := {},
    instrMem := fun _ => none, dataMem := fun _ => some 0,
    inputBuf := [], inputPtr := 0, output := [], halted := true }

theorem halted_step_unchanged_witness :
    haltedDemo.halted = true ∧ step haltedDemo = (.error .halted, haltedDemo) :=
  ⟨rfl, halted_step_unchanged haltedDemo rfl⟩

/-! ## C6 — the Number truncation law (corrected) -/

/-- The claim's truncation law fails as stated: for `bit_depth = 60` and
`v = 2^53 + 1` the masked magnitude is `2^53 + 1`, but `math.copysign`
rounds it through a 53-bit double, so `set_value` stores `2^53` instead. -/
theorem truncation_law_cex :
    pySetValue 60 9007199254740993 = .ok 9007199254740992 ∧
    truncMag 60 9007199254740993 = 9007199254740993 ∧
    (9007199254740992 : Int) ≠ 9007199254740993 := by
  have hl : Nat.log2 9007199254740993 = 53 :=
    log2_eval (by norm_num) (by norm_num)
  have hr : pyFloatRound 9007199254740993 = 9007199254740992 := by
    simp only [pyFloatRound, hl]
    decide
  have hm : truncMag 60 (9007199254740993 : Int) = 9007199254740993 := by decide
  have hn : (9007199254740993 : Int).natAbs = 9007199254740993 := by decide
  refine ⟨?_, hm, by decide⟩
  unfold pySetValue
  rw [hm, hn]
  unfold floatConvertible
  rw [hr]
  simp only [mySign]
  norm_num

/-- C6 amended: the truncation law holds whenever the masked magnitude
stays below `2^53` (so the double conversion is exact) and `abs(v)` itself
is small enough to convert to a double at all — in particular for every
16-bit `Number` the machine builds from in-range data. -/
theorem truncation_law (bd : Nat) (v : Int) (hbd : 1 ≤ bd)
    (hmask : truncMag bd v < 2 ^ 53) (hconv : floatConvertible v.natAbs = true) :
    pySetValue bd v = .ok (mySign v * (truncMag bd v : Int)) := by
  unfold pySetValue
  rw [floatConvertible_small hmask, hconv, pyFloatRound_small hmask]
  simp

set_option maxRecDepth 4000 in
theorem truncation_law_witness :
    1 ≤ 16 ∧ truncMag 16 (-100) < 2 ^ 53 ∧
    floatConvertible (Int.natAbs (-100)) = true ∧
    pySetValue 16 (-100) = .ok (mySign (-100) * (truncMag 16 (-100) : Int)) :=
  ⟨by norm_num, by decide, by decide,
   truncation_law 16 (-100) (by norm_num) (by decide) (by decide)⟩

/-! ## C2 — the bus-OR law -/

/-- C2: with both bus-A registers read-gated open (and bus B silent, its
result latched into the data register), `ALU.perform` combines the
accumulator and instruction pointer by bitwise OR — so two registers
driving the same bus OR their values rather than add them: with both
holding 1 the bus carries 1, not 2. -/
theorem bus_or_law (s : MState) (hw : wf s)
    (h1 : s.acc.readO = true) (h2 : s.ip.readO = true)
    (h3 : s.dataReg.readO = false) (h4 : s.addrReg.readO = false)
    (h5 : s.dataReg.writeO = true) :
    (aluPerform false false false s).dataReg.num = trunc16 (pyOr s.acc.num s.ip.num) ∧
    pyOr 1 1 = 1 ∧ (1 : Int) + 1 ≠ pyOr 1 1 := by
  refine ⟨?_, by decide, by decide⟩
  simp only [aluPerform, Reg.read, Reg.write, h1, h2, h3, h4, h5, if_true, if_false]
  simp [pyOr_zero_left, trunc16_zero, trunc16_idem]

/-- A concrete state with both bus-A registers driving value 1. -/
def busDemo : MState :=
  { acc := { num := 1, readO := true }, addrReg := {},
    dataReg := { writeO := true }, ip := { num := 1, readO := true },
    instrMem := fun _ => none, dataMem := fun _ => some 0,
    inputBuf := [], inputPtr := 0, output := [] }

theorem bus_or_law_witness :
    wf busDemo ∧
    (aluPerform false false false busDemo).dataReg.num = trunc16 (pyOr busDemo.acc.num busDemo.ip.num) ∧
    (aluPerform false false false busDemo).dataReg.num = 1 := by
  have hw : wf busDemo := by
    refine ⟨by decide, by decide, by decide, by decide, ?_, ?_⟩
    · intro n v h
      simp only [busDemo] at h
      cases h
      decide
    · intro v h
      simp [busDemo] at h
  exact ⟨hw, (bus_or_law busDemo hw rfl rfl rfl rfl rfl).1, by decide⟩

/-! ## C10 — negative instruction pointer wraps -/

/-- C10: a negative stored instruction pointer `-k` (for `0 < k ≤ 2^16`)
does not make the fetch fail: Python list indexing wraps, and the cell at
index `2^16 - k` is fetched. -/
theorem negative_ip_fetch_wraps (s : MState) (k : Nat)
    (hk1 : 0 < k) (hk2 : k ≤ 65536) (hip : s.ip.num = -(k : Int)) :
    instrCell s = .ok (s.instrMem (65536 - k)) ∧
    (fetchInstruction s).1 = .ok () ∧
    (fetchInstruction s).2.instruction = s.instrMem (65536 - k) := by
  have h0 : ¬ (0 ≤ s.ip.num ∧ s.ip.num < ((65536 : Nat) : Int)) := by rw [hip]; omega
  have h1 : -((65536 : Nat) : Int) ≤ s.ip.num ∧ s.ip.num < 0 := by rw [hip]; omega
  have h2 : (s.ip.num + ((65536 : Nat) : Int)).toNat = 65536 - k := by rw [hip]; omega
  have hidx : pyListGet s.instrMem 65536 s.ip.num = .ok (s.instrMem (65536 - k)) := by
    unfold pyListGet
    rw [if_neg h0, if_pos h1, h2]
  refine ⟨by unfold instrCell; exact hidx, ?_, ?_⟩ <;>
  · unfold fetchInstruction
    simp [Reg.read, hidx]

/-- A machine whose instruction pointer has wrapped to `-3`. -/
def negIpDemo : MState :=
  { acc := {}, addrReg := {}, dataReg := {},
    ip := { num := -3 },
    instrMem := fun n => if n = 65533 then some { operation := "HLT" } else none,
    dataMem := fun _ => some 0,
    inputBuf := [], inputPtr := 0, output := [] }

theorem negative_ip_fetch_wraps_witness :
    0 < 3 ∧ 3 ≤ 65536 ∧ negIpDemo.ip.num = -(3 : Int) ∧
    instrCell negIpDemo = .ok (negIpDemo.instrMem 65533) :=
  ⟨by norm_num, by norm_num, rfl,
   (negative_ip_fetch_wraps negIpDemo 3 (by norm_num) (by norm_num) rfl).1⟩

/-! ## C7 — the memory-mapped device window -/

/-- C7: with the address register's gated value 2 or 3, both memory
accesses die in an out-of-range lookup of the two-element device list,
leaving the state untouched; gated value 0 consults the input device on a
read (cell 0 takes the device's answer, the device cursor moves) and 1
forwards a write to the output sink; for a gated value of at least 4 no
device is involved, only the plain cell. -/
theorem device_window_dispatch (s : MState) (hw : wf s) :
    ((s.addrReg.read = 2 ∨ s.addrReg.read = 3) →
        dataMemRead s = (.error .indexErr, s) ∧
        dataMemWrite s = (.error .indexErr, s)) ∧
    (s.addrReg.read = 0 →
        (dataMemRead s).1 = .ok () ∧
        (dataMemRead s).2.dataMem 0 = some (inputDevRead s).1 ∧
        (dataMemRead s).2.inputPtr = (inputDevRead s).2.inputPtr) ∧
    (s.addrReg.read = 1 → 0 ≤ trunc16 s.dataReg.read →
        (dataMemWrite s).1 = .ok () ∧
        (dataMemWrite s).2.output = s.output ++ [trunc16 s.dataReg.read]) ∧
    (4 ≤ s.addrReg.read →
        ((dataMemRead s).2.dataMem = s.dataMem ∧
         (dataMemRead s).2.inputPtr = s.inputPtr ∧
         (dataMemRead s).2.output = s.output) ∧
        ((dataMemWrite s).2.inputPtr = s.inputPtr ∧
         (dataMemWrite s).2.output = s.output)) := by
  refine ⟨?_, ?_, ?_, ?_⟩
  · rintro (h | h) <;>
      refine ⟨?_, ?_⟩ <;>
        simp [dataMemRead, dataMemWrite, h]
  · intro h
    unfold dataMemRead
    rw [h]
    norm_num
    unfold inputDevRead
    by_cases hbuf : s.inputBuf.length ≤ s.inputPtr <;>
      by_cases hdw : s.dataReg.writeO <;>
        simp [hbuf, hdw, pyListGet, pyUpdate, dataRegLatch]
  · intro h hpos
    unfold dataMemWrite
    rw [h]
    norm_num
    unfold outputDevWrite
    have hlt : trunc16 s.dataReg.read < 1114112 := by
      have := trunc16_natAbs_le s.dataReg.read
      omega
    simp [hpos, hlt, pyListSet, pyUpdate]
  · intro h
    have h0 : ¬ s.addrReg.read < 0 := by omega
    have h4 : ¬ s.addrReg.read < 4 := by omega
    refine ⟨?_, ?_⟩
    · unfold dataMemRead
      rw [if_neg h0, if_neg h4]
      unfold pyListGet
      split_ifs with hc1 hc2
      · unfold dataRegLatch
        split_ifs with hdw
        · cases hcell : s.dataMem s.addrReg.read.toNat <;> simp
        · simp
      · unfold dataRegLatch
        split_ifs with hdw
        · cases hcell : s.dataMem (s.addrReg.read + 65536).toNat <;> simp
        · simp
      · simp
    · unfold dataMemWrite
      rw [if_neg h0]
      simp only [if_neg h4]
      unfold pyListSet
      split_ifs <;> simp

/-- Well-formedness for demo states whose data memory is all zeroes and
whose input buffer is empty. -/
theorem wf_of_simple (s : MState)
    (h1 : s.acc.num.natAbs ≤ 65535) (h2 : s.addrReg.num.natAbs ≤ 65535)
    (h3 : s.dataReg.num.natAbs ≤ 65535) (h4 : s.ip.num.natAbs ≤ 65535)
    (h5 : s.dataMem = fun _ => some 0) (h6 : s.inputBuf = []) : wf s := by
  refine ⟨h1, h2, h3, h4, ?_, ?_⟩
  · intro n v hv
    rw [h5] at hv
    cases hv
    decide
  · intro v hv
    rw [h6] at hv
    simp at hv

/-- A state whose address register drives the unbacked device address 2. -/
def devDemo : MState :=
  { acc := {}, addrReg := { num := 2, readO := true }, dataReg := {}, ip := {},
    instrMem := fun _ => none, dataMem := fun _ => some 0,
    inputBuf := [], inputPtr := 0, output := [] }

theorem device_window_dispatch_witness :
    wf devDemo ∧ devDemo.addrReg.read = 2 ∧
    dataMemRead devDemo = (.error .indexErr, devDemo) ∧
    dataMemWrite devDemo = (.error .indexErr, devDemo) := by
  have hw : wf devDemo :=
    wf_of_simple devDemo (by decide) (by decide) (by decide) (by decide) rfl rfl
  exact ⟨hw, rfl, (device_window_dispatch devDemo hw).1 (Or.inl rfl)⟩

/-! ## C8 — Machine construction (corrected) -/

set_option maxRecDepth 4000 in
theorem parseData_cons_int (v : Int) (ts : List PyTok) :
    parseData (PyTok.intTok v :: ts) =
      (match pySetValue 16 v with
       | .error e => .error e
       | .ok n =>
         match parseData ts with
         | .ok ns => .ok (n :: ns)
         | .error e => .error e) := by
  rw [parseData]

theorem machineInit_err {toks : List PyTok} {e : Err}
    (program : List (Option Instr)) (inputChars : List Nat)
    (hp : parseData toks = .error e) :
    machineInit toks program inputChars = .error e := by
  unfold machineInit
  rw [hp]

theorem machineInit_ok_arm {toks : List PyTok} {ns : List Int}
    (program : List (Option Instr)) (inputChars : List Nat)
    (hp : parseData toks = .ok ns) :
    machineInit toks program inputChars = machineBuild ns program inputChars := by
  unfold machineInit
  rw [hp]

theorem parseData_ok_length :
    ∀ (ts : List PyTok) (ns : List Int), parseData ts = .ok ns → ns.length = ts.length := by
  intro ts
  induction ts with
  | nil => intro ns h; cases h; rfl
  | cons t ts ih =>
    intro ns h
    cases t with
    | intTok v =>
      rw [parseData_cons_int] at h
      rcases hv : pySetValue 16 v with e | n <;> rw [hv] at h
      · cases h
      · rcases hts : parseData ts with e | ns' <;> rw [hts] at h
        · cases h
        · cases h
          simp [ih ns' hts]
    | otherTok => cases h

theorem parseData_ok_iff (ts : List PyTok) :
    (∃ ns, parseData ts = .ok ns) ↔
      ∀ t ∈ ts, ∃ v, t = PyTok.intTok v ∧ floatConvertible v.natAbs = true := by
  induction ts with
  | nil => simp [parseData]
  | cons t ts ih =>
    cases t with
    | intTok v =>
      simp only [parseData_cons_int]
      rcases hv : pySetValue 16 v with e | n
      · rw [pySetValue_16] at hv
        by_cases hc : floatConvertible v.natAbs
        · rw [if_pos hc] at hv
          cases hv
        · constructor
          · rintro ⟨ns, hns⟩
            cases hns
          · intro hall
            obtain ⟨v', hv', hcv'⟩ := hall (PyTok.intTok v) (List.mem_cons_self _ _)
            cases hv'
            simp only [Bool.not_eq_true] at hc
            rw [hc] at hcv'
            cases hcv'
      · have hc : floatConvertible v.natAbs = true := by
          rw [pySetValue_16] at hv
          by_cases hc : floatConvertible v.natAbs
          · exact hc
          · simp only [Bool.not_eq_true] at hc
            rw [hc] at hv
            simp at hv
        constructor
        · rintro ⟨ns, hns⟩
          rcases hts : parseData ts with e | ns' <;> rw [hts] at hns
          · cases hns
          · intro t ht
            rcases List.mem_cons.1 ht with rfl | ht'
            · exact ⟨v, rfl, hc⟩
            · exact (ih.1 ⟨ns', hts⟩) t ht'
        · intro hall
          obtain ⟨ns', hts⟩ := ih.2 fun t ht => hall t (List.mem_cons_of_mem _ ht)
          rw [hts]
          exact ⟨_, rfl⟩
    | otherTok =>
      constructor
      · rintro ⟨ns, hns⟩
        cases hns
      · intro hall
        obtain ⟨v', hv', _⟩ := hall PyTok.otherTok (List.mem_cons_self _ _)
        cases hv'

/-- C8 amended: construction succeeds exactly when every data element is an
int whose magnitude converts to a double (magnitudes that round to `2^1024`
or beyond raise `OverflowError` inside `Number`), the data list has fewer
than `2^16` elements, and the program list has fewer than `2^16` elements
(the constructors' asserts are strict: a sequence of exactly `2^16` entries
is also rejected). -/
theorem machine_init_ok_iff (toks : List PyTok) (program : List (Option Instr))
    (inputChars : List Nat) :
    (∃ s, machineInit toks program inputChars = .ok s) ↔
      ((∀ t ∈ toks, ∃ v, t = PyTok.intTok v ∧ floatConvertible v.natAbs = true) ∧
       toks.length < 65536 ∧ program.length < 65536) := by
  constructor
  · rintro ⟨s, hs⟩
    rcases hp : parseData toks with e | ns
    · rw [machineInit_err program inputChars hp] at hs
      cases hs
    · rw [machineInit_ok_arm program inputChars hp] at hs
      have hlen := parseData_ok_length toks ns hp
      unfold machineBuild at hs
      by_cases hprog : program ≠ [] ∧ 65536 ≤ program.length
      · rw [if_pos hprog] at hs
        cases hs
      · rw [if_neg hprog] at hs
        by_cases hdata : ns ≠ [] ∧ 65536 ≤ ns.length
        · rw [if_pos hdata] at hs
          cases hs
        · refine ⟨(parseData_ok_iff toks).1 ⟨ns, hp⟩, ?_, ?_⟩
          · by_cases hne : ns = []
            · subst hne
              simp only [List.length_nil] at hlen
              omega
            · push_neg at hdata
              have := hdata hne
              omega
          · by_cases hne : program = []
            · rw [hne]
              simp
            · push_neg at hprog
              have := hprog hne
              omega
  · rintro ⟨hall, htoks, hprog⟩
    obtain ⟨ns, hp⟩ := (parseData_ok_iff toks).2 hall
    have hlen := parseData_ok_length toks ns hp
    rw [machineInit_ok_arm program inputChars hp]
    unfold machineBuild
    rw [if_neg (by rintro ⟨-, h⟩; omega), if_neg (by rintro ⟨-, h⟩; omega)]
    exact ⟨_, rfl⟩

set_option maxRecDepth 8000 in
/-- The claim's "fails if and only if" is violated: the record
`{data: [2**1024], program: []}` consists of integers and fits every bound,
yet construction fails — `Number(16, 2**1024)` calls
`math.copysign(0.0, 2**1024)` and converting `2**1024` to a double raises
`OverflowError`. -/
theorem machine_init_cex :
    machineInit [PyTok.intTok (2 ^ 1024)] [] [] = .error Err.overflow ∧
    ([PyTok.intTok (2 ^ 1024)] : List PyTok).length < 65536 ∧
    ∀ t ∈ ([PyTok.intTok (2 ^ 1024)] : List PyTok), ∃ v : Int, t = PyTok.intTok v := by
  have hlog : Nat.log2 (2 ^ 1024) = 1024 :=
    log2_eval (le_refl _) (Nat.pow_lt_pow_right (by norm_num) (by norm_num))
  have hle : (2 : Nat) ^ 53 ≤ 2 ^ 1024 := Nat.pow_le_pow_right (by norm_num) (by norm_num)
  have hfr : pyFloatRound (2 ^ 1024) = 2 ^ 1024 := by
    have hdiv : (2 : Nat) ^ 1024 / 2 ^ 972 = 2 ^ 52 :=
      Nat.pow_div (by norm_num) (by norm_num)
    have hmod : (2 : Nat) ^ 1024 % 2 ^ 972 = 0 :=
      Nat.mod_eq_zero_of_dvd (pow_dvd_pow 2 (by norm_num))
    simp only [pyFloatRound, hlog]
    rw [if_neg (by omega), show (1024 : Nat) - 52 = 972 from by norm_num,
        show (972 : Nat) - 1 = 971 from by norm_num, hdiv, hmod]
    have h971 : (0 : Nat) < 2 ^ 971 := Nat.pos_pow_of_pos _ (by norm_num)
    have h2 : (2 : Nat) ^ 52 % 2 = 0 := by
      rw [pow_succ]
      exact Nat.mul_mod_left _ _
    rw [if_neg (by omega), ← pow_add]
  have hfc : floatConvertible (2 ^ 1024) = false := by
    unfold floatConvertible
    rw [hfr]
    exact decide_eq_false (lt_irrefl _)
  have hnat : ((2 : Int) ^ 1024).natAbs = 2 ^ 1024 := by
    simp [Int.natAbs_pow]
  have hsv : pySetValue 16 ((2 : Int) ^ 1024) = .error .overflow := by
    rw [pySetValue_16, hnat, hfc]
    simp
  have hpd : parseData [PyTok.intTok (2 ^ 1024)] = .error Err.overflow := by
    rw [parseData_cons_int, hsv]
  exact ⟨machineInit_err [] [] hpd, by norm_num, fun t ht => by
    simp only [List.mem_singleton] at ht
    exact ⟨_, ht⟩⟩

/-! ## Step machinery: decomposition and frame lemmas -/

@[simp] theorem Reg.write_readO (r : Reg) (v : Int) : (r.write v).readO = r.readO := by
  unfold Reg.write
  split <;> rfl

@[simp] theorem Reg.write_writeO (r : Reg) (v : Int) : (r.write v).writeO = r.writeO := by
  unfold Reg.write
  split <;> rfl

theorem Reg.write_closed {r : Reg} (h : r.writeO = false) (v : Int) : r.write v = r := by
  unfold Reg.write
  rw [h]
  simp

theorem Reg.write_open {r : Reg} (h : r.writeO = true) (v : Int) :
    r.write v = { r with num := trunc16 v } := by
  unfold Reg.write
  rw [h]
  simp

@[simp] theorem aluPerform_instrMem (a b c : Bool) (s : MState) :
    (aluPerform a b c s).instrMem = s.instrMem := rfl
@[simp] theorem aluPerform_dataMem (a b c : Bool) (s : MState) :
    (aluPerform a b c s).dataMem = s.dataMem := rfl
@[simp] theorem aluPerform_inputBuf (a b c : Bool) (s : MState) :
    (aluPerform a b c s).inputBuf = s.inputBuf := rfl
@[simp] theorem aluPerform_inputPtr (a b c : Bool) (s : MState) :
    (aluPerform a b c s).inputPtr = s.inputPtr := rfl
@[simp] theorem aluPerform_output (a b c : Bool) (s : MState) :
    (aluPerform a b c s).output = s.output := rfl
@[simp] theorem aluPerform_instruction (a b c : Bool) (s : MState) :
    (aluPerform a b c s).instruction = s.instruction := rfl
@[simp] theorem aluPerform_lockInc (a b c : Bool) (s : MState) :
    (aluPerform a b c s).lockInc = s.lockInc := rfl
@[simp] theorem aluPerform_halted (a b c : Bool) (s : MState) :
    (aluPerform a b c s).halted = s.halted := rfl

@[simp] theorem aluPerform_acc_readO (a b c : Bool) (s : MState) :
    (aluPerform a b c s).acc.readO = s.acc.readO := by
  unfold aluPerform
  simp
@[simp] theorem aluPerform_acc_writeO (a b c : Bool) (s : MState) :
    (aluPerform a b c s).acc.writeO = s.acc.writeO := by
  unfold aluPerform
  simp
@[simp] theorem aluPerform_addr_readO (a b c : Bool) (s : MState) :
    (aluPerform a b c s).addrReg.readO = s.addrReg.readO := by
  unfold aluPerform
  simp
@[simp] theorem aluPerform_addr_writeO (a b c : Bool) (s : MState) :
    (aluPerform a b c s).addrReg.writeO = s.addrReg.writeO := by
  unfold aluPerform
  simp
@[simp] theorem aluPerform_data_readO (a b c : Bool) (s : MState) :
    (aluPerform a b c s).dataReg.readO = s.dataReg.readO := by
  unfold aluPerform
  simp
@[simp] theorem aluPerform_data_writeO (a b c : Bool) (s : MState) :
    (aluPerform a b c s).dataReg.writeO = s.dataReg.writeO := by
  unfold aluPerform
  simp
@[simp] theorem aluPerform_ip_readO (a b c : Bool) (s : MState) :
    (aluPerform a b c s).ip.readO = s.ip.readO := by
  unfold aluPerform
  simp
@[simp] theorem aluPerform_ip_writeO (a b c : Bool) (s : MState) :
    (aluPerform a b c s).ip.writeO = s.ip.writeO := by
  unfold aluPerform
  simp

theorem aluPerform_acc_closed {s : MState} (h : s.acc.writeO = false) (a b c : Bool) :
    (aluPerform a b c s).acc = s.acc := by
  unfold aluPerform
  simp [Reg.write_closed h]
theorem aluPerform_addr_closed {s : MState} (h : s.addrReg.writeO = false) (a b c : Bool) :
    (aluPerform a b c s).addrReg = s.addrReg := by
  unfold aluPerform
  simp [Reg.write_closed h]
theorem aluPerform_data_closed {s : MState} (h : s.dataReg.writeO = false) (a b c : Bool) :
    (aluPerform a b c s).dataReg = s.dataReg := by
  unfold aluPerform
  simp [Reg.write_closed h]
theorem aluPerform_ip_closed {s : MState} (h : s.ip.writeO = false) (a b c : Bool) :
    (aluPerform a b c s).ip = s.ip := by
  unfold aluPerform
  simp [Reg.write_closed h]

/-- The state `step` hands to `_perform`: suppress-advance flag reset, the
fetched cell stored, the instruction pointer's read gate closed again. -/
def prep (s : MState) (c : Option Instr) : MState :=
  { s with lockInc := false, instruction := c, ip := { s.ip with readO := false } }

@[simp] theorem afterPerform_ok (s2 : MState) :
    afterPerform (.ok (), s2) = (.ok (), nextOp s2) := rfl
@[simp] theorem afterPerform_err (e : Err) (s2 : MState) :
    afterPerform (.error e, s2) = (.error e, s2) := rfl

theorem step_eq (s : MState) (hh : s.halted = false) (c : Option Instr)
    (hc : instrCell s = .ok c) :
    step s = afterPerform (performOp (prep s c)) := by
  have hc' : pyListGet s.instrMem 65536 s.ip.num = .ok c := hc
  have hcond : (s.halted = true) = False := by simp [hh]
  unfold step fetchInstruction prep
  simp only [hcond, if_false, Reg.read, if_true]
  rw [hc']

theorem nextOp_skip {t : MState} (hl : t.lockInc = true) : nextOp t = t := by
  unfold nextOp
  rw [hl]
  simp

theorem nextOp_adv {t : MState} (hl : t.lockInc = false)
    (ha : t.acc.readO = false) (hd : t.dataReg.readO = false)
    (har : t.addrReg.readO = false) (hip : t.ip.num.natAbs ≤ 65535) :
    nextOp t = { t with
      acc := t.acc.write (trunc16 (t.ip.num + 1)),
      dataReg := t.dataReg.write (trunc16 (t.ip.num + 1)),
      addrReg := t.addrReg.write (trunc16 (t.ip.num + 1)),
      ip := { num := trunc16 (t.ip.num + 1), readO := false, writeO := false } } := by
  have hres : trunc16 (trunc16 (trunc16 ((1 : Int) + t.ip.num) + 0)) = trunc16 (t.ip.num + 1) := by
    rw [add_zero, trunc16_idem, trunc16_idem, add_comm]
  unfold nextOp aluPerform
  rw [hl]
  simp only [Bool.false_eq_true, if_false, Reg.read, ha, hd, har, if_true]
  simp only [pyOr_zero_left, pyOr_zero_right, trunc16_zero, trunc16_of_le hip]
  rw [show trunc16 (0 + 1 : Int) = 1 from by decide]
  rw [hres]
  rw [Reg.write_open (show ({ t.ip with readO := true, writeO := true } : Reg).writeO = true from rfl)]
  simp [trunc16_idem]

@[simp] theorem prep_acc (s : MState) (c : Option Instr) : (prep s c).acc = s.acc := rfl
@[simp] theorem prep_addrReg (s : MState) (c : Option Instr) : (prep s c).addrReg = s.addrReg := rfl
@[simp] theorem prep_dataReg (s : MState) (c : Option Instr) : (prep s c).dataReg = s.dataReg := rfl
@[simp] theorem prep_ip_num (s : MState) (c : Option Instr) : (prep s c).ip.num = s.ip.num := rfl
@[simp] theorem prep_ip_readO (s : MState) (c : Option Instr) : (prep s c).ip.readO = false := rfl
@[simp] theorem prep_ip_writeO (s : MState) (c : Option Instr) : (prep s c).ip.writeO = s.ip.writeO := rfl
@[simp] theorem prep_instruction (s : MState) (c : Option Instr) : (prep s c).instruction = c := rfl
@[simp] theorem prep_lockInc (s : MState) (c : Option Instr) : (prep s c).lockInc = false := rfl
@[simp] theorem prep_halted (s : MState) (c : Option Instr) : (prep s c).halted = s.halted := rfl
@[simp] theorem prep_instrMem (s : MState) (c : Option Instr) : (prep s c).instrMem = s.instrMem := rfl
@[simp] theorem prep_dataMem (s : MState) (c : Option Instr) : (prep s c).dataMem = s.dataMem := rfl
@[simp] theorem prep_inputBuf (s : MState) (c : Option Instr) : (prep s c).inputBuf = s.inputBuf := rfl
@[simp] theorem prep_inputPtr (s : MState) (c : Option Instr) : (prep s c).inputPtr = s.inputPtr := rfl
@[simp] theorem prep_output (s : MState) (c : Option Instr) : (prep s c).output = s.output := rfl

theorem performOp_none {p : MState} (hpi : p.instruction = none) :
    performOp p = (.ok (), p) := by
  unfold performOp
  rw [hpi]

theorem performOp_some {p : MState} {i : Instr} (hpi : p.instruction = some i) :
    performOp p =
      (if i.operation = "INC" then (.ok (), incOp p)
       else if i.operation = "INV" then (.ok (), invOp p)
       else if i.operation = "ADD" then addOp false p
       else if i.operation = "SUB" then addOp true p
       else if i.operation = "LD" then ldOp p
       else if i.operation = "SV" then svOp p
       else if i.operation = "JMP" then jmpOp p
       else if i.operation = "JZ" then jzOp p
       else if i.operation = "JP" then jpOp p
       else if i.operation = "JN" then jnOp p
       else if i.operation = "HLT" then (.ok (), hltOp p)
       else (.error .instrErr, p)) := by
  unfold performOp
  rw [hpi]

/-! ## C3 — missing instruction record (corrected) -/

/-- A machine with an entirely empty program memory. -/
def emptyProgDemo : MState :=
  { acc := {}, addrReg := {}, dataReg := {}, ip := {},
    instrMem := fun _ => none, dataMem := fun _ => some 0,
    inputBuf := [], inputPtr := 0, output := [] }

/-- The claim fails: with the addressed instruction cell empty, `step()`
does not raise an instruction error — `_perform` returns silently on a
falsy instruction and the step completes, advancing the pointer to 1. -/
theorem missing_instruction_cex :
    (step emptyProgDemo).1 = .ok () ∧ (step emptyProgDemo).2.ip.num = 1 := by
  have hc : instrCell emptyProgDemo = .ok none := rfl
  rw [step_eq emptyProgDemo rfl none hc, performOp_none rfl, afterPerform_ok]
  rw [nextOp_adv rfl rfl rfl rfl (by decide)]
  exact ⟨rfl, by decide⟩

/-- C3 amended: an empty instruction cell is not an error — the step
completes as a no-op (accumulator, data/address registers, data memory and
devices untouched) with the instruction pointer advanced by 1; only a
present instruction with an unknown opcode fails with the instruction
error. -/
theorem missing_instruction_nop (s : MState) (hg : gatesClosed s)
    (hh : s.halted = false) (hip : s.ip.num.natAbs ≤ 65535) :
    (instrCell s = .ok none →
       (step s).1 = .ok () ∧
       (step s).2.ip.num = trunc16 (s.ip.num + 1) ∧
       (step s).2.acc = s.acc ∧ (step s).2.dataReg = s.dataReg ∧
       (step s).2.addrReg = s.addrReg ∧ (step s).2.dataMem = s.dataMem ∧
       (step s).2.output = s.output ∧ (step s).2.inputPtr = s.inputPtr) ∧
    (∀ i, instrCell s = .ok (some i) →
       i.operation ∉ (["INC", "INV", "ADD", "SUB", "LD", "SV",
                       "JMP", "JZ", "JP", "JN", "HLT"] : List String) →
       (step s).1 = .error .instrErr) := by
  obtain ⟨g1, g2, g3, g4, g5, g6, g7, g8⟩ := hg
  constructor
  · intro hc
    rw [step_eq s hh none hc, performOp_none (prep_instruction s none), afterPerform_ok]
    rw [nextOp_adv (prep_lockInc s none) (by simp [g1]) (by simp [g5]) (by simp [g3])
        (by simp [hip])]
    refine ⟨rfl, by simp, ?_, ?_, ?_, rfl, rfl, rfl⟩
    · simp [Reg.write_closed g2]
    · simp [Reg.write_closed g6]
    · simp [Reg.write_closed g4]
  · intro i hc hop
    simp only [List.mem_cons, List.not_mem_nil, or_false, not_or] at hop
    obtain ⟨n1, n2, n3, n4, n5, n6, n7, n8, n9, n10, n11⟩ := hop
    rw [step_eq s hh (some i) hc, performOp_some (prep_instruction s (some i))]
    rw [if_neg n1, if_neg n2, if_neg n3, if_neg n4, if_neg n5, if_neg n6, if_neg n7,
        if_neg n8, if_neg n9, if_neg n10, if_neg n11, afterPerform_err]

/-- A machine whose first instruction carries the unknown opcode NOP. -/
def unknownOpDemo : MState :=
  { acc := {}, addrReg := {}, dataReg := {}, ip := {},
    instrMem := fun n => if n = 0 then some { operation := "NOP" } else none,
    dataMem := fun _ => some 0,
    inputBuf := [], inputPtr := 0, output := [] }

theorem missing_instruction_nop_witness :
    gatesClosed emptyProgDemo ∧ emptyProgDemo.halted = false ∧
    emptyProgDemo.ip.num.natAbs ≤ 65535 ∧
    ((step emptyProgDemo).1 = .ok () ∧
     (step emptyProgDemo).2.ip.num = trunc16 (emptyProgDemo.ip.num + 1)) ∧
    (step unknownOpDemo).1 = .error .instrErr := by
  refine ⟨by decide, rfl, by decide, ?_, ?_⟩
  · have h := (missing_instruction_nop emptyProgDemo (by decide) rfl (by decide)).1 rfl
    exact ⟨h.1, h.2.1⟩
  · exact (missing_instruction_nop unknownOpDemo (by decide) rfl (by decide)).2
      { operation := "NOP" } rfl (by decide)

theorem performOp_INC {p : MState} {i : Instr} (hpi : p.instruction = some i)
    (hop : i.operation = "INC") : performOp p = (.ok (), incOp p) := by
  rw [performOp_some hpi, hop]
  simp

theorem performOp_INV {p : MState} {i : Instr} (hpi : p.instruction = some i)
    (hop : i.operation = "INV") : performOp p = (.ok (), invOp p) := by
  rw [performOp_some hpi, hop]
  simp

theorem performOp_ADD {p : MState} {i : Instr} (hpi : p.instruction = some i)
    (hop : i.operation = "ADD") : performOp p = addOp false p := by
  rw [performOp_some hpi, hop]
  simp

theorem performOp_SUB {p : MState} {i : Instr} (hpi : p.instruction = some i)
    (hop : i.operation = "SUB") : performOp p = addOp true p := by
  rw [performOp_some hpi, hop]
  simp

theorem performOp_LD {p : MState} {i : Instr} (hpi : p.instruction = some i)
    (hop : i.operation = "LD") : performOp p = ldOp p := by
  rw [performOp_some hpi, hop]
  simp

theorem performOp_SV {p : MState} {i : Instr} (hpi : p.instruction = some i)
    (hop : i.operation = "SV") : performOp p = svOp p := by
  rw [performOp_some hpi, hop]
  simp

theorem performOp_JMP {p : MState} {i : Instr} (hpi : p.instruction = some i)
    (hop : i.operation = "JMP") : performOp p = jmpOp p := by
  rw [performOp_some hpi, hop]
  simp

theorem performOp_JZ {p : MState} {i : Instr} (hpi : p.instruction = some i)
    (hop : i.operation = "JZ") : performOp p = jzOp p := by
  rw [performOp_some hpi, hop]
  simp

theorem performOp_JP {p : MState} {i : Instr} (hpi : p.instruction = some i)
    (hop : i.operation = "JP") : performOp p = jpOp p := by
  rw [performOp_some hpi, hop]
  simp

theorem performOp_JN {p : MState} {i : Instr} (hpi : p.instruction = some i)
    (hop : i.operation = "JN") : performOp p = jnOp p := by
  rw [performOp_some hpi, hop]
  simp

theorem performOp_HLT {p : MState} {i : Instr} (hpi : p.instruction = some i)
    (hop : i.operation = "HLT") : performOp p = (.ok (), hltOp p) := by
  rw [performOp_some hpi, hop]
  simp

/-! ## C9 — not-taken conditional jumps do nothing but advance -/

/-- C9: a JZ/JP/JN whose accumulator test fails performs no operand fetch
and has no effect on the data register, address register, accumulator, data
memory or devices; its only effect is the instruction-pointer advance
by 1. -/
theorem jump_not_taken_frame (s : MState) (i : Instr) (hw : wf s)
    (hg : gatesClosed s) (hh : s.halted = false)
    (hc : instrCell s = .ok (some i))
    (hcond : (i.operation = "JZ" ∧ s.acc.num ≠ 0) ∨
             (i.operation = "JP" ∧ ¬ 0 < s.acc.num) ∨
             (i.operation = "JN" ∧ ¬ s.acc.num < 0)) :
    (step s).1 = .ok () ∧
    (step s).2.dataReg = s.dataReg ∧
    (step s).2.addrReg = s.addrReg ∧
    (step s).2.acc = s.acc ∧
    (step s).2.dataMem = s.dataMem ∧
    (step s).2.inputBuf = s.inputBuf ∧
    (step s).2.inputPtr = s.inputPtr ∧
    (step s).2.output = s.output ∧
    (step s).2.ip.num = trunc16 (s.ip.num + 1) ∧
    (step s).2.ip.num ≡ s.ip.num + 1 [ZMOD 65536] := by
  obtain ⟨g1, g2, g3, g4, g5, g6, g7, g8⟩ := hg
  obtain ⟨-, -, -, hip, -, -⟩ := hw
  have hnt : performOp (prep s (some i)) = (.ok (), prep s (some i)) := by
    rcases hcond with ⟨hop, hne⟩ | ⟨hop, hne⟩ | ⟨hop, hne⟩
    · rw [performOp_JZ (prep_instruction s (some i)) hop]
      unfold jzOp
      rw [if_neg (by simpa using hne)]
    · rw [performOp_JP (prep_instruction s (some i)) hop]
      unfold jpOp
      rw [if_neg (by simpa using hne)]
    · rw [performOp_JN (prep_instruction s (some i)) hop]
      unfold jnOp
      rw [if_neg (by simpa using hne)]
  rw [step_eq s hh (some i) hc, hnt, afterPerform_ok]
  rw [nextOp_adv (prep_lockInc s (some i)) (by simp [g1]) (by simp [g5]) (by simp [g3])
      (by simp [hip])]
  refine ⟨rfl, ?_, ?_, ?_, rfl, rfl, rfl, rfl, by simp, ?_⟩
  · simp [Reg.write_closed g6]
  · simp [Reg.write_closed g4]
  · simp [Reg.write_closed g2]
  · simp only [MState.ip]
    have := trunc16_modEq (s.ip.num + 1)
    simpa using this

/-- A machine about to execute a not-taken JZ (accumulator 5). -/
def jzDemo : MState :=
  { acc := { num := 5 }, addrReg := {}, dataReg := {}, ip := {},
    instrMem := fun n => if n = 0 then some { operation := "JZ", fetch_type := some "const", data := some 7 } else none,
    dataMem := fun _ => some 0,
    inputBuf := [], inputPtr := 0, output := [] }

theorem jump_not_taken_frame_witness :
    wf jzDemo ∧ gatesClosed jzDemo ∧ jzDemo.halted = false ∧
    jzDemo.acc.num ≠ 0 ∧
    (step jzDemo).1 = .ok () ∧
    (step jzDemo).2.acc = jzDemo.acc ∧
    (step jzDemo).2.ip.num = trunc16 (jzDemo.ip.num + 1) := by
  have hw : wf jzDemo :=
    wf_of_simple jzDemo (by decide) (by decide) (by decide) (by decide) rfl rfl
  have h := jump_not_taken_frame jzDemo
    { operation := "JZ", fetch_type := some "const", data := some 7 }
    hw (by decide) rfl rfl (Or.inl ⟨rfl, by decide⟩)
  exact ⟨hw, by decide, rfl, by decide, h.1, h.2.2.2.1, h.2.2.2.2.2.2.2.2.1⟩

/-! ## Sequencing and memory frame lemmas -/

theorem withFetch_ok {s s1 : MState} (h : fetchData s = (.ok (), s1))
    (k : MState → Except Err Unit × MState) : withFetch k s = k s1 := by
  unfold withFetch
  rw [h]

theorem withFetch_err {s s1 : MState} {e : Err} (h : fetchData s = (.error e, s1))
    (k : MState → Except Err Unit × MState) : withFetch k s = (.error e, s1) := by
  unfold withFetch
  rw [h]

theorem memReadThen_ok {s s' : MState} (h : dataMemRead s = (.ok (), s'))
    (k : MState → Except Err Unit × MState) : memReadThen k s = k s' := by
  unfold memReadThen
  rw [h]

theorem memReadThen_err {s s' : MState} {e : Err} (h : dataMemRead s = (.error e, s'))
    (k : MState → Except Err Unit × MState) : memReadThen k s = (.error e, s') := by
  unfold memReadThen
  rw [h]

theorem memWriteThen_ok {s s' : MState} (h : dataMemWrite s = (.ok (), s'))
    (k : MState → Except Err Unit × MState) : memWriteThen k s = k s' := by
  unfold memWriteThen
  rw [h]

theorem memWriteThen_err {s s' : MState} {e : Err} (h : dataMemWrite s = (.error e, s'))
    (k : MState → Except Err Unit × MState) : memWriteThen k s = (.error e, s') := by
  unfold memWriteThen
  rw [h]

@[simp] theorem closeDataW_ok (s4 : MState) :
    closeDataW (.ok (), s4) = (.ok (), { s4 with dataReg := { s4.dataReg with writeO := false } }) := rfl
@[simp] theorem closeDataW_err (e : Err) (s4 : MState) :
    closeDataW (.error e, s4) = (.error e, s4) := rfl

theorem dataMemRead_frame (s : MState) :
    (dataMemRead s).2.acc = s.acc ∧
    (dataMemRead s).2.addrReg = s.addrReg ∧
    (dataMemRead s).2.ip = s.ip ∧
    (dataMemRead s).2.dataReg.readO = s.dataReg.readO ∧
    (dataMemRead s).2.dataReg.writeO = s.dataReg.writeO ∧
    (dataMemRead s).2.instrMem = s.instrMem ∧
    (dataMemRead s).2.instruction = s.instruction ∧
    (dataMemRead s).2.lockInc = s.lockInc ∧
    (dataMemRead s).2.halted = s.halted ∧
    (dataMemRead s).2.inputBuf = s.inputBuf := by
  unfold dataMemRead dataRegLatch inputDevRead
  split_ifs <;> (repeat' split) <;> simp_all [pyListGet, pyUpdate] <;>
    split_ifs <;> (repeat' split) <;> simp_all

theorem dataMemRead_ok_norm {s t : MState} (hdw : s.dataReg.writeO = true)
    (h : dataMemRead s = (.ok (), t)) : t.dataReg.num.natAbs ≤ 65535 := by
  unfold dataMemRead dataRegLatch inputDevRead at h
  by_cases h1 : s.addrReg.read < 0
  · rw [if_pos h1] at h
    simp at h
  rw [if_neg h1] at h
  by_cases h2 : s.addrReg.read < 4
  · rw [if_pos h2] at h
    by_cases h3 : s.addrReg.read = 0
    · rw [if_pos h3, h3] at h
      by_cases h4 : s.inputBuf.length ≤ s.inputPtr <;>
        [rw [if_pos h4] at h; rw [if_neg h4] at h] <;>
        · simp only [pyListGet, pyUpdate, hdw] at h
          norm_num at h
          obtain ⟨-, rfl⟩ := h
          exact trunc16_natAbs_le _
    · rw [if_neg h3] at h
      by_cases h5 : s.addrReg.read = 1
      · rw [if_pos h5, h5] at h
        simp only [pyListGet, pyUpdate, hdw] at h
        simp at h
      · rw [if_neg h5] at h
        simp at h
  · rw [if_neg h2] at h
    rcases hc : pyListGet s.dataMem 65536 s.addrReg.read with e | c <;> rw [hc] at h
    · simp at h
    · rcases c with - | v
      · rw [hdw] at h
        simp at h
      · rw [hdw] at h
        simp only [if_true] at h
        obtain ⟨-, rfl⟩ := Prod.mk.injEq .. |>.mp h
        exact trunc16_natAbs_le _

theorem dataMemWrite_frame (s : MState) :
    (dataMemWrite s).2.acc = s.acc ∧
    (dataMemWrite s).2.addrReg = s.addrReg ∧
    (dataMemWrite s).2.dataReg = s.dataReg ∧
    (dataMemWrite s).2.ip = s.ip ∧
    (dataMemWrite s).2.instrMem = s.instrMem ∧
    (dataMemWrite s).2.instruction = s.instruction ∧
    (dataMemWrite s).2.lockInc = s.lockInc ∧
    (dataMemWrite s).2.halted = s.halted ∧
    (dataMemWrite s).2.inputBuf = s.inputBuf := by
  unfold dataMemWrite outputDevWrite
  dsimp only
  by_cases h1 : s.addrReg.read < 0
  · rw [if_pos h1]
    simp
  rw [if_neg h1]
  by_cases h2 : s.addrReg.read < 4
  · rw [if_pos h2]
    by_cases h3 : s.addrReg.read = 0
    · rw [if_pos h3, h3]
      simp [pyListSet, pyUpdate]
    · rw [if_neg h3]
      by_cases h5 : s.addrReg.read = 1
      · rw [if_pos h5, h5]
        by_cases h6 : 0 ≤ trunc16 s.dataReg.read ∧ trunc16 s.dataReg.read < 1114112
        · rw [if_pos h6]
          simp [pyListSet, pyUpdate]
        · rw [if_neg h6]
          simp
      · rw [if_neg h5]
        simp
  · rw [if_neg h2]
    rcases hc : pyListSet s.dataMem 65536 s.addrReg.read (some (trunc16 s.dataReg.read)) with e | f <;>
      simp [hc]

@[simp] theorem fetchAddrState_acc (rel : Bool) (v : Int) (s : MState) :
    (fetchAddrState rel v s).acc = s.acc := rfl
@[simp] theorem fetchAddrState_ip (rel : Bool) (v : Int) (s : MState) :
    (fetchAddrState rel v s).ip = s.ip := rfl
@[simp] theorem fetchAddrState_dataReg (rel : Bool) (v : Int) (s : MState) :
    (fetchAddrState rel v s).dataReg = s.dataReg := rfl
@[simp] theorem fetchAddrState_instrMem (rel : Bool) (v : Int) (s : MState) :
    (fetchAddrState rel v s).instrMem = s.instrMem := rfl
@[simp] theorem fetchAddrState_instruction (rel : Bool) (v : Int) (s : MState) :
    (fetchAddrState rel v s).instruction = s.instruction := rfl
@[simp] theorem fetchAddrState_lockInc (rel : Bool) (v : Int) (s : MState) :
    (fetchAddrState rel v s).lockInc = s.lockInc := rfl
@[simp] theorem fetchAddrState_halted (rel : Bool) (v : Int) (s : MState) :
    (fetchAddrState rel v s).halted = s.halted := rfl
@[simp] theorem fetchAddrState_addr_readO (rel : Bool) (v : Int) (s : MState) :
    (fetchAddrState rel v s).addrReg.readO = true := rfl
@[simp] theorem fetchAddrState_addr_writeO (rel : Bool) (v : Int) (s : MState) :
    (fetchAddrState rel v s).addrReg.writeO = true := by
  unfold fetchAddrState
  simp

theorem Reg.eta_readO {r : Reg} (h : r.readO = false) : { r with readO := false } = r := by
  cases r
  simp_all
theorem Reg.eta_writeO {r : Reg} (h : r.writeO = false) : { r with writeO := false } = r := by
  cases r
  simp_all
theorem Reg.eta_both {r : Reg} (h1 : r.readO = false) (h2 : r.writeO = false) :
    ({ num := r.num, readO := false, writeO := false } : Reg) = r := by
  cases r
  simp_all

theorem fetchFromMem_ok (rel : Bool) (v : Int) (p1 t' : MState)
    (hdw : p1.dataReg.writeO = true)
    (h : fetchFromMem rel v p1 = (.ok (), t')) :
    t'.acc = p1.acc ∧ t'.ip = p1.ip ∧
    t'.dataReg.readO = p1.dataReg.readO ∧ t'.dataReg.writeO = true ∧
    t'.dataReg.num.natAbs ≤ 65535 ∧
    t'.addrReg.readO = false ∧ t'.addrReg.writeO = true ∧
    t'.instruction = p1.instruction ∧ t'.lockInc = p1.lockInc ∧
    t'.halted = p1.halted ∧ t'.instrMem = p1.instrMem := by
  unfold fetchFromMem at h
  rcases hmr : dataMemRead (fetchAddrState rel v p1) with ⟨r5, s5⟩
  have hfr := dataMemRead_frame (fetchAddrState rel v p1)
  rw [hmr] at hfr
  cases r5 with
  | error e =>
    rw [memReadThen_err hmr] at h
    simp at h
  | ok u =>
    rw [memReadThen_ok hmr] at h
    obtain ⟨-, rfl⟩ := Prod.mk.injEq .. |>.mp h
    have hnorm : s5.dataReg.num.natAbs ≤ 65535 :=
      dataMemRead_ok_norm (by simp [hdw]) hmr
    simp only at hfr
    obtain ⟨ha, hadr, hip, hdr, hdwO, him, hin, hlk, hht, -⟩ := hfr
    refine ⟨by simp [ha], by simp [hip], by simp [hdr, hdwO], by simp [hdwO, hdw],
            by simp [hnorm], by simp, by simp [hadr], by simp [hin], by simp [hlk],
            by simp [hht], by simp [him]⟩

theorem fetchData_eq {s : MState} {i : Instr} {d v : Int} {ft : String}
    (hpi : s.instruction = some i) (hd : i.data = some d)
    (hv : pySetValue 16 d = .ok v) (hft : i.fetch_type = some ft) :
    fetchData s =
      closeDataW (fetchBranch ft v { s with dataReg := { s.dataReg with writeO := true } }) := by
  unfold fetchData
  rw [hpi]
  dsimp only
  rw [hd]
  dsimp only
  rw [hv]
  dsimp only
  rw [hft]

set_option maxRecDepth 4000 in
/-- What a successful `_fetch_data` does to a gates-closed state: the data
register ends up loaded (with a normalised value) and all gates are back
shut — except that the memory-addressing modes leave the address register's
write gate open. -/
theorem fetchData_ok (p t : MState) (i : Instr)
    (hg : gatesClosed p) (hpi : p.instruction = some i)
    (h : fetchData p = (.ok (), t)) :
    t.acc = p.acc ∧ t.ip = p.ip ∧
    t.dataReg.readO = false ∧ t.dataReg.writeO = false ∧
    t.dataReg.num.natAbs ≤ 65535 ∧
    t.addrReg.readO = false ∧
    (t.addrReg.writeO = true ↔
      (i.fetch_type = some "abs_mem" ∨ i.fetch_type = some "rel_mem")) ∧
    t.instruction = p.instruction ∧ t.lockInc = p.lockInc ∧ t.halted = p.halted ∧
    t.instrMem = p.instrMem ∧
    (∀ d' v', i.data = some d' → i.fetch_type = some "const" →
      pySetValue 16 d' = .ok v' → t.dataReg.num = v') := by
  obtain ⟨g1, g2, g3, g4, g5, g6, g7, g8⟩ := hg
  rcases hd : i.data with - | d
  · unfold fetchData at h
    rw [hpi] at h
    dsimp only at h
    rw [hd] at h
    simp at h
  rcases hv : pySetValue 16 d with e | v
  · unfold fetchData at h
    rw [hpi] at h
    dsimp only at h
    rw [hd] at h
    dsimp only at h
    rw [hv] at h
    simp at h
  rcases hft : i.fetch_type with - | ft
  · unfold fetchData at h
    rw [hpi] at h
    dsimp only at h
    rw [hd] at h
    dsimp only at h
    rw [hv] at h
    dsimp only at h
    rw [hft] at h
    simp at h
  rw [fetchData_eq hpi hd hv hft] at h
  unfold fetchBranch at h
  by_cases f1 : ft = "const"
  · rw [if_pos f1] at h
    rw [closeDataW_ok] at h
    obtain ⟨-, rfl⟩ := Prod.mk.injEq .. |>.mp h
    rw [Reg.write_open (by simp)]
    refine ⟨rfl, rfl, by simp [g5], by simp, by simp [trunc16_natAbs_le], by simp [g3],
            ?_, rfl, rfl, rfl, rfl, ?_⟩
    · simp [g4, hft, f1]
    · intro d' v' hd' hft' hv'
      injection hd' with hde
      subst hde
      rw [hv] at hv'
      injection hv' with hve
      subst hve
      simpa using trunc16_of_le (pySetValue_16_norm hv)
  rw [if_neg f1] at h
  by_cases f2 : ft = "const_rel"
  · rw [if_pos f2] at h
    rw [closeDataW_ok] at h
    obtain ⟨-, rfl⟩ := Prod.mk.injEq .. |>.mp h
    rw [Reg.write_open (by simp)]
    refine ⟨rfl, rfl, by simp [g5], by simp, by simp [trunc16_natAbs_le], by simp [g3],
            ?_, rfl, rfl, rfl, rfl, ?_⟩
    · simp [g4, hft, f2]
    · intro d' v' hd' hft' hv'
      injection hft' with hfe
      exact absurd hfe f1
  rw [if_neg f2] at h
  by_cases f3 : ft = "acc"
  · rw [if_pos f3] at h
    dsimp only at h
    rw [closeDataW_ok] at h
    obtain ⟨-, rfl⟩ := Prod.mk.injEq .. |>.mp h
    refine ⟨?_, ?_, by simp [g5], by simp, ?_, by simp [g3], by simp [g4, hft, f3],
            by simp, by simp, by simp, by simp, ?_⟩
    · simp [aluPerform_acc_closed, g2]
      exact Reg.eta_both g1 g2
    · simp [aluPerform_ip_closed, g8]
    · simp [aluPerform, Reg.write, trunc16_natAbs_le]
    · intro d' v' hd' hft' hv'
      injection hft' with hfe
      exact absurd hfe f1
  rw [if_neg f3] at h
  by_cases f4 : ft = "abs_mem"
  · rw [if_pos f4] at h
    rcases hfm : fetchFromMem false v
        { p with dataReg := { p.dataReg with writeO := true } } with ⟨r4, s4⟩
    rw [hfm] at h
    cases r4 with
    | error e =>
      rw [closeDataW_err] at h
      simp at h
    | ok u =>
      rw [closeDataW_ok] at h
      obtain ⟨-, rfl⟩ := Prod.mk.injEq .. |>.mp h
      obtain ⟨ha, hip, hdr, hdw, hnm, har, haw, hin, hlk, hht, him⟩ :=
        fetchFromMem_ok false v _ s4 (by simp) hfm
      refine ⟨by simp [ha], by simp [hip], by simp [hdr, g5], by simp,
              by simp [hnm], by simp [har], by simp [haw, hft, f4],
              by simp [hin], by simp [hlk], by simp [hht], by simp [him], ?_⟩
      intro d' v' hd' hft' hv'
      injection hft' with hfe
      exact absurd hfe f1
  rw [if_neg f4] at h
  by_cases f5 : ft = "rel_mem"
  · rw [if_pos f5] at h
    rcases hfm : fetchFromMem true v
        { p with dataReg := { p.dataReg with writeO := true } } with ⟨r4, s4⟩
    rw [hfm] at h
    cases r4 with
    | error e =>
      rw [closeDataW_err] at h
      simp at h
    | ok u =>
      rw [closeDataW_ok] at h
      obtain ⟨-, rfl⟩ := Prod.mk.injEq .. |>.mp h
      obtain ⟨ha, hip, hdr, hdw, hnm, har, haw, hin, hlk, hht, him⟩ :=
        fetchFromMem_ok true v _ s4 (by simp) hfm
      refine ⟨by simp [ha], by simp [hip], by simp [hdr, g5], by simp,
              by simp [hnm], by simp [har], by simp [haw, hft, f5],
              by simp [hin], by simp [hlk], by simp [hht], by simp [him], ?_⟩
      intro d' v' hd' hft' hv'
      injection hft' with hfe
      exact absurd hfe f1
  rw [if_neg f5, closeDataW_err] at h
  simp at h

/-! ## Handler postcondition lemmas -/

theorem incOp_spec (p : MState) (hg : gatesClosed p) :
    (incOp p).ip = p.ip ∧ gatesClosed (incOp p) ∧
    (incOp p).lockInc = p.lockInc ∧ (incOp p).halted = p.halted ∧
    (incOp p).dataReg = p.dataReg ∧ (incOp p).addrReg = p.addrReg := by
  obtain ⟨g1, g2, g3, g4, g5, g6, g7, g8⟩ := hg
  unfold incOp
  refine ⟨?_, ⟨?_, ?_, ?_, ?_, ?_, ?_, ?_, ?_⟩, ?_, ?_, ?_, ?_⟩ <;>
    simp [aluPerform_ip_closed, aluPerform_data_closed, aluPerform_addr_closed,
          g3, g4, g5, g6, g7, g8]

theorem invOp_spec (p : MState) (hg : gatesClosed p) :
    (invOp p).ip = p.ip ∧ gatesClosed (invOp p) ∧
    (invOp p).lockInc = p.lockInc ∧ (invOp p).halted = p.halted ∧
    (invOp p).dataReg = p.dataReg ∧ (invOp p).addrReg = p.addrReg := by
  obtain ⟨g1, g2, g3, g4, g5, g6, g7, g8⟩ := hg
  unfold invOp
  refine ⟨?_, ⟨?_, ?_, ?_, ?_, ?_, ?_, ?_, ?_⟩, ?_, ?_, ?_, ?_⟩ <;>
    simp [aluPerform_ip_closed, aluPerform_data_closed, aluPerform_addr_closed,
          g3, g4, g5, g6, g7, g8]

theorem hltOp_spec (p : MState) :
    (hltOp p).ip = p.ip ∧ (hltOp p).acc = p.acc ∧ (hltOp p).dataReg = p.dataReg ∧
    (hltOp p).addrReg = p.addrReg ∧ (hltOp p).lockInc = p.lockInc ∧
    (hltOp p).halted = true := by
  unfold hltOp
  exact ⟨rfl, rfl, rfl, rfl, rfl, rfl⟩

/-- The pure tail of `_add`/`_sub` applied to a post-fetch state. -/
theorem addTail_spec (invR : Bool) (f : MState) (hipw : f.ip.writeO = false) :
    (addTail invR f).ip = f.ip ∧
    (addTail invR f).acc.readO = false ∧ (addTail invR f).acc.writeO = false ∧
    (addTail invR f).dataReg.readO = false ∧
    (addTail invR f).dataReg.writeO = f.dataReg.writeO ∧
    (addTail invR f).addrReg.readO = f.addrReg.readO ∧
    (addTail invR f).addrReg.writeO = f.addrReg.writeO ∧
    (addTail invR f).lockInc = f.lockInc ∧ (addTail invR f).halted = f.halted := by
  unfold addTail
  refine ⟨?_, ?_, ?_, ?_, ?_, ?_, ?_, ?_, ?_⟩ <;>
    simp [aluPerform_ip_closed, hipw]

theorem dataRegToAddrReg_spec (f : MState) (haw : f.acc.writeO = false)
    (hipw : f.ip.writeO = false) (hdr : f.dataReg.readO = false)
    (hdw : f.dataReg.writeO = false) :
    (dataRegToAddrReg f).acc = f.acc ∧ (dataRegToAddrReg f).ip = f.ip ∧
    (dataRegToAddrReg f).dataReg = f.dataReg ∧
    (dataRegToAddrReg f).addrReg.readO = f.addrReg.readO ∧
    (dataRegToAddrReg f).addrReg.writeO = false ∧
    (dataRegToAddrReg f).lockInc = f.lockInc ∧
    (dataRegToAddrReg f).halted = f.halted := by
  unfold dataRegToAddrReg
  refine ⟨?_, ?_, ?_, ?_, ?_, ?_, ?_⟩ <;>
    simp [aluPerform_ip_closed, aluPerform_acc_closed, aluPerform_data_closed,
          haw, hipw, hdw]
  exact Reg.eta_both hdr hdw

theorem accToDataReg_spec (f : MState) (har : f.acc.readO = false)
    (haw : f.acc.writeO = false) (hipw : f.ip.writeO = false) :
    (accToDataReg f).acc = f.acc ∧ (accToDataReg f).ip = f.ip ∧
    (accToDataReg f).dataReg.readO = f.dataReg.readO ∧
    (accToDataReg f).dataReg.writeO = false ∧
    (accToDataReg f).addrReg.readO = f.addrReg.readO ∧
    (accToDataReg f).addrReg.writeO = f.addrReg.writeO ∧
    (accToDataReg f).lockInc = f.lockInc ∧ (accToDataReg f).halted = f.halted := by
  unfold accToDataReg
  refine ⟨?_, ?_, ?_, ?_, ?_, ?_, ?_, ?_⟩ <;>
    simp [aluPerform_ip_closed, aluPerform_acc_closed, haw, hipw]
  exact Reg.eta_both har haw

theorem dataRegToAcc_spec (f : MState) (hipw : f.ip.writeO = false) :
    (dataRegToAcc f).ip = f.ip ∧
    (dataRegToAcc f).acc.readO = f.acc.readO ∧ (dataRegToAcc f).acc.writeO = false ∧
    (dataRegToAcc f).dataReg.readO = false ∧
    (dataRegToAcc f).dataReg.writeO = f.dataReg.writeO ∧
    (dataRegToAcc f).addrReg.readO = f.addrReg.readO ∧
    (dataRegToAcc f).addrReg.writeO = f.addrReg.writeO ∧
    (dataRegToAcc f).lockInc = f.lockInc ∧ (dataRegToAcc f).halted = f.halted := by
  unfold dataRegToAcc
  refine ⟨?_, ?_, ?_, ?_, ?_, ?_, ?_, ?_, ?_⟩ <;>
    simp [aluPerform_ip_closed, hipw]

theorem jmpTail_spec (f : MState)
    (ha_r : f.acc.readO = false) (ha_w : f.acc.writeO = false)
    (hip_r : f.ip.readO = false) (hadr : f.addrReg.readO = false)
    (hdr : f.dataReg.readO = false) (hdw : f.dataReg.writeO = false)
    (hnorm : f.dataReg.num.natAbs ≤ 65535) :
    (jmpTail f).ip.num = f.dataReg.num ∧
    (jmpTail f).ip.readO = false ∧ (jmpTail f).ip.writeO = false ∧
    (jmpTail f).dataReg = f.dataReg ∧
    (jmpTail f).acc = f.acc ∧
    (jmpTail f).addrReg.readO = f.addrReg.readO ∧
    (jmpTail f).addrReg.writeO = f.addrReg.writeO ∧
    (jmpTail f).lockInc = true ∧ (jmpTail f).halted = f.halted := by
  unfold jmpTail aluPerform
  simp [Reg.read, Reg.write, ha_r, ha_w, hip_r, hadr, hdr, hdw,
        pyOr_zero_left, pyOr_zero_right, trunc16_zero, trunc16_of_le hnorm, trunc16_idem]
  refine ⟨Reg.eta_both hdr hdw, ?_, ?_⟩ <;>
    by_cases haw2 : f.addrReg.writeO = true <;> simp [haw2, hadr]

theorem ldAddrState_spec (f : MState) (haw : f.acc.writeO = false)
    (hipw : f.ip.writeO = false) (hdr : f.dataReg.readO = false)
    (hdw : f.dataReg.writeO = false) :
    (ldAddrState f).acc = f.acc ∧ (ldAddrState f).ip = f.ip ∧
    (ldAddrState f).dataReg.readO = false ∧ (ldAddrState f).dataReg.writeO = true ∧
    (ldAddrState f).addrReg.readO = true ∧ (ldAddrState f).addrReg.writeO = false ∧
    (ldAddrState f).lockInc = f.lockInc ∧ (ldAddrState f).halted = f.halted := by
  obtain ⟨ha, hip, hd, har, haw2, hlk, hht⟩ := dataRegToAddrReg_spec f haw hipw hdr hdw
  unfold ldAddrState
  refine ⟨by simp [ha], by simp [hip], by simp [hd, hdr], by simp, by simp,
          by simp [haw2], by simp [hlk], by simp [hht]⟩

theorem svSetupState_spec (f : MState) (har : f.acc.readO = false)
    (haw : f.acc.writeO = false) (hipw : f.ip.writeO = false)
    (hdr : f.dataReg.readO = false) (hdw : f.dataReg.writeO = false) :
    (svSetupState f).acc = f.acc ∧ (svSetupState f).ip = f.ip ∧
    (svSetupState f).dataReg.readO = true ∧ (svSetupState f).dataReg.writeO = false ∧
    (svSetupState f).addrReg.readO = true ∧ (svSetupState f).addrReg.writeO = false ∧
    (svSetupState f).lockInc = f.lockInc ∧ (svSetupState f).halted = f.halted := by
  obtain ⟨ha, hip, hd, har2, haw2, hlk, hht⟩ := dataRegToAddrReg_spec f haw hipw hdr hdw
  have h2 := accToDataReg_spec (dataRegToAddrReg f)
    (by rw [ha]; exact har) (by rw [ha]; exact haw) (by rw [hip]; exact hipw)
  obtain ⟨ja, jip, jdr, jdw, jar, jaw, jlk, jht⟩ := h2
  unfold svSetupState
  refine ⟨by simp [ja, ha], by simp [jip, hip], by simp, by simp [jdw],
          by simp, by simp [jaw, haw2], by simp [jlk, hlk], by simp [jht, hht]⟩

@[simp] theorem ldCloseState_acc (s5 : MState) : (ldCloseState s5).acc = s5.acc := rfl
@[simp] theorem ldCloseState_ip (s5 : MState) : (ldCloseState s5).ip = s5.ip := rfl
@[simp] theorem ldCloseState_dataReg_num (s5 : MState) :
    (ldCloseState s5).dataReg.num = s5.dataReg.num := rfl
@[simp] theorem ldCloseState_dataReg_readO (s5 : MState) :
    (ldCloseState s5).dataReg.readO = s5.dataReg.readO := rfl
@[simp] theorem ldCloseState_dataReg_writeO (s5 : MState) :
    (ldCloseState s5).dataReg.writeO = false := rfl
@[simp] theorem ldCloseState_addrReg_readO (s5 : MState) :
    (ldCloseState s5).addrReg.readO = false := rfl
@[simp] theorem ldCloseState_addrReg_writeO (s5 : MState) :
    (ldCloseState s5).addrReg.writeO = s5.addrReg.writeO := rfl
@[simp] theorem ldCloseState_lockInc (s5 : MState) :
    (ldCloseState s5).lockInc = s5.lockInc := rfl
@[simp] theorem ldCloseState_halted (s5 : MState) :
    (ldCloseState s5).halted = s5.halted := rfl

@[simp] theorem svCloseState_acc (s6 : MState) : (svCloseState s6).acc = s6.acc := rfl
@[simp] theorem svCloseState_ip (s6 : MState) : (svCloseState s6).ip = s6.ip := rfl
@[simp] theorem svCloseState_dataReg_num (s6 : MState) :
    (svCloseState s6).dataReg.num = s6.dataReg.num := rfl
@[simp] theorem svCloseState_dataReg_readO (s6 : MState) :
    (svCloseState s6).dataReg.readO = false := rfl
@[simp] theorem svCloseState_dataReg_writeO (s6 : MState) :
    (svCloseState s6).dataReg.writeO = s6.dataReg.writeO := rfl
@[simp] theorem svCloseState_addrReg_readO (s6 : MState) :
    (svCloseState s6).addrReg.readO = false := rfl
@[simp] theorem svCloseState_addrReg_writeO (s6 : MState) :
    (svCloseState s6).addrReg.writeO = s6.addrReg.writeO := rfl
@[simp] theorem svCloseState_lockInc (s6 : MState) :
    (svCloseState s6).lockInc = s6.lockInc := rfl
@[simp] theorem svCloseState_halted (s6 : MState) :
    (svCloseState s6).halted = s6.halted := rfl

/-- Whether this instruction's jump transfer fires in state `p`. -/
def isJumpTaken (i : Instr) (p : MState) : Prop :=
  i.operation = "JMP" ∨ (i.operation = "JZ" ∧ p.acc.num = 0) ∨
  (i.operation = "JP" ∧ 0 < p.acc.num) ∨ (i.operation = "JN" ∧ p.acc.num < 0)

/-- The jump transfer (shared by JMP and taken JZ/JP/JN): decompose a
successful `jmpOp` run. -/
theorem jmpOp_ok_spec (p t : MState) (i : Instr)
    (hg : gatesClosed p) (hpi : p.instruction = some i)
    (h : jmpOp p = (.ok (), t)) :
    t.acc.readO = false ∧ t.acc.writeO = false ∧
    t.dataReg.readO = false ∧ t.dataReg.writeO = false ∧
    t.addrReg.readO = false ∧
    t.ip.readO = false ∧ t.ip.writeO = false ∧
    (t.addrReg.writeO = true ↔
      (i.fetch_type = some "abs_mem" ∨ i.fetch_type = some "rel_mem")) ∧
    t.lockInc = true ∧ t.ip.num = t.dataReg.num ∧
    (∀ d' v', i.data = some d' → i.fetch_type = some "const" →
      pySetValue 16 d' = .ok v' → t.dataReg.num = v') := by
  obtain ⟨g1, g2, g3, g4, g5, g6, g7, g8⟩ := hg
  unfold jmpOp at h
  rcases hfd : fetchData p with ⟨r, f⟩
  cases r with
  | error e =>
    rw [withFetch_err hfd] at h
    simp at h
  | ok u =>
    rw [withFetch_ok hfd] at h
    obtain ⟨-, rfl⟩ := Prod.mk.injEq .. |>.mp h
    obtain ⟨fa, fip, fdr, fdw, fnm, far, fawIff, -, flk, -, -, fct⟩ :=
      fetchData_ok p f i ⟨g1, g2, g3, g4, g5, g6, g7, g8⟩ hpi (by rw [hfd])
    obtain ⟨jn, jr, jw, jd, ja, jar, jaw, jlk, -⟩ :=
      jmpTail_spec f (by rw [fa]; exact g1) (by rw [fa]; exact g2)
        (by rw [fip]; exact g7) far fdr fdw fnm
    refine ⟨by rw [ja, fa]; exact g1, by rw [ja, fa]; exact g2,
            by rw [jd]; exact fdr, by rw [jd]; exact fdw,
            by rw [jar]; exact far, jr, jw, ?_, jlk, by rw [jn, jd], ?_⟩
    · rw [jaw]
      exact fawIff
    · intro d' v' hd' hft' hv'
      rw [jd]
      exact fct d' v' hd' hft' hv'

/-- Everything C1 and C4 need to know about a successful `_perform` from a
gates-closed pre-state. -/
theorem performOp_ok_spec (p t : MState) (i : Instr)
    (hg : gatesClosed p) (hpi : p.instruction = some i) (hlk : p.lockInc = false)
    (h : performOp p = (.ok (), t)) :
    t.acc.readO = false ∧ t.acc.writeO = false ∧
    t.dataReg.readO = false ∧ t.dataReg.writeO = false ∧
    t.addrReg.readO = false ∧
    t.ip.readO = false ∧ t.ip.writeO = false ∧
    (t.addrReg.writeO = true ↔
      ((i.operation = "ADD" ∨ i.operation = "SUB" ∨ isJumpTaken i p) ∧
       (i.fetch_type = some "abs_mem" ∨ i.fetch_type = some "rel_mem"))) ∧
    (isJumpTaken i p → t.lockInc = true ∧ t.ip.num = t.dataReg.num) ∧
    (¬ isJumpTaken i p → t.lockInc = false ∧ t.ip.num = p.ip.num) ∧
    (∀ d' v', i.data = some d' → i.fetch_type = some "const" →
      pySetValue 16 d' = .ok v' → isJumpTaken i p → t.ip.num = v') := by
  have hg' := hg
  obtain ⟨g1, g2, g3, g4, g5, g6, g7, g8⟩ := hg
  by_cases o1 : i.operation = "INC"
  · rw [performOp_INC hpi o1] at h
    obtain ⟨-, rfl⟩ := Prod.mk.injEq .. |>.mp h
    obtain ⟨hip, ⟨k1, k2, k3, k4, k5, k6, k7, k8⟩, hlk2, -, -, har⟩ := incOp_spec p hg'
    have hnj : ¬ isJumpTaken i p := by simp [isJumpTaken, o1]
    refine ⟨k1, k2, k5, k6, k3, k7, k8, ?_, fun htk => absurd htk hnj,
            fun _ => ⟨by rw [hlk2, hlk], by rw [hip]⟩,
            fun _ _ _ _ _ htk => absurd htk hnj⟩
    rw [k4]
    simp [o1, hnj]
  by_cases o2 : i.operation = "INV"
  · rw [performOp_INV hpi o2] at h
    obtain ⟨-, rfl⟩ := Prod.mk.injEq .. |>.mp h
    obtain ⟨hip, ⟨k1, k2, k3, k4, k5, k6, k7, k8⟩, hlk2, -, -, har⟩ := invOp_spec p hg'
    have hnj : ¬ isJumpTaken i p := by simp [isJumpTaken, o2]
    refine ⟨k1, k2, k5, k6, k3, k7, k8, ?_, fun htk => absurd htk hnj,
            fun _ => ⟨by rw [hlk2, hlk], by rw [hip]⟩,
            fun _ _ _ _ _ htk => absurd htk hnj⟩
    rw [k4]
    simp [o2, hnj]
  by_cases o3 : i.operation = "ADD"
  · rw [performOp_ADD hpi o3] at h
    unfold addOp at h
    rcases hfd : fetchData p with ⟨r, f⟩
    cases r with
    | error e =>
      rw [withFetch_err hfd] at h
      simp at h
    | ok u =>
      rw [withFetch_ok hfd] at h
      obtain ⟨-, rfl⟩ := Prod.mk.injEq .. |>.mp h
      obtain ⟨fa, fip, fdr, fdw, fnm, far, fawIff, -, flk, -, -, -⟩ :=
        fetchData_ok p f i hg' hpi (by rw [hfd])
      obtain ⟨tip, t1, t2, t3, t4, t5, t6, tlk, -⟩ :=
        addTail_spec false f (by rw [fip]; exact g8)
      have hnj : ¬ isJumpTaken i p := by simp [isJumpTaken, o3]
      refine ⟨t1, t2, t3, by rw [t4]; exact fdw, by rw [t5]; exact far,
              by rw [tip, fip]; exact g7, by rw [tip, fip]; exact g8, ?_,
              fun htk => absurd htk hnj,
              fun _ => ⟨by rw [tlk, flk, hlk], by rw [tip, fip]⟩,
              fun _ _ _ _ _ htk => absurd htk hnj⟩
      rw [t6, fawIff]
      simp [o3]
  by_cases o4 : i.operation = "SUB"
  · rw [performOp_SUB hpi o4] at h
    unfold addOp at h
    rcases hfd : fetchData p with ⟨r, f⟩
    cases r with
    | error e =>
      rw [withFetch_err hfd] at h
      simp at h
    | ok u =>
      rw [withFetch_ok hfd] at h
      obtain ⟨-, rfl⟩ := Prod.mk.injEq .. |>.mp h
      obtain ⟨fa, fip, fdr, fdw, fnm, far, fawIff, -, flk, -, -, -⟩ :=
        fetchData_ok p f i hg' hpi (by rw [hfd])
      obtain ⟨tip, t1, t2, t3, t4, t5, t6, tlk, -⟩ :=
        addTail_spec true f (by rw [fip]; exact g8)
      have hnj : ¬ isJumpTaken i p := by simp [isJumpTaken, o4]
      refine ⟨t1, t2, t3, by rw [t4]; exact fdw, by rw [t5]; exact far,
              by rw [tip, fip]; exact g7, by rw [tip, fip]; exact g8, ?_,
              fun htk => absurd htk hnj,
              fun _ => ⟨by rw [tlk, flk, hlk], by rw [tip, fip]⟩,
              fun _ _ _ _ _ htk => absurd htk hnj⟩
      rw [t6, fawIff]
      simp [o4]
  by_cases o5 : i.operation = "LD"
  · rw [performOp_LD hpi o5] at h
    unfold ldOp at h
    rcases hfd : fetchData p with ⟨r, f⟩
    cases r with
    | error e =>
      rw [withFetch_err hfd] at h
      simp at h
    | ok u =>
      rw [withFetch_ok hfd] at h
      obtain ⟨fa, fip, fdr, fdw, fnm, far, fawIff, -, flk, -, -, -⟩ :=
        fetchData_ok p f i hg' hpi (by rw [hfd])
      rcases hmr : dataMemRead (ldAddrState f) with ⟨r5, s5⟩
      cases r5 with
      | error e =>
        rw [memReadThen_err hmr] at h
        simp at h
      | ok u5 =>
        rw [memReadThen_ok hmr] at h
        obtain ⟨-, rfl⟩ := Prod.mk.injEq .. |>.mp h
        have hfr := dataMemRead_frame (ldAddrState f)
        rw [hmr] at hfr
        simp only at hfr
        obtain ⟨m1, m2, m3, m4, m5, -, -, mlk, -, -⟩ := hfr
        obtain ⟨l1, l2, l3, l4, l5, l6, l7, l8⟩ :=
          ldAddrState_spec f (by rw [fa]; exact g2) (by rw [fip]; exact g8) fdr fdw
        obtain ⟨d1, d2, d3, d4, d5, d6, d7, d8, -⟩ :=
          dataRegToAcc_spec (ldCloseState s5) (by simp [m3, l2, fip, g8])
        have hnj : ¬ isJumpTaken i p := by simp [isJumpTaken, o5]
        refine ⟨by rw [d2]; simp [m1, l1, fa, g1], d3,
                d4, by simp [d5], by simp [d6],
                by rw [d1]; simp [m3, l2, fip, g7],
                by rw [d1]; simp [m3, l2, fip, g8], ?_,
                fun htk => absurd htk hnj,
                fun _ => ⟨by rw [d8]; simp [mlk, l7, flk, hlk],
                          by rw [d1]; simp [m3, l2, fip]⟩,
                fun _ _ _ _ _ htk => absurd htk hnj⟩
        rw [d7]
        simp only [ldCloseState_addrReg_writeO]
        rw [m2, l6]
        simp [o5, hnj]
  by_cases o6 : i.operation = "SV"
  · rw [performOp_SV hpi o6] at h
    unfold svOp at h
    rcases hfd : fetchData p with ⟨r, f⟩
    cases r with
    | error e =>
      rw [withFetch_err hfd] at h
      simp at h
    | ok u =>
      rw [withFetch_ok hfd] at h
      obtain ⟨fa, fip, fdr, fdw, fnm, far, fawIff, -, flk, -, -, -⟩ :=
        fetchData_ok p f i hg' hpi (by rw [hfd])
      rcases hmw : dataMemWrite (svSetupState f) with ⟨r6, s6⟩
      cases r6 with
      | error e =>
        rw [memWriteThen_err hmw] at h
        simp at h
      | ok u6 =>
        rw [memWriteThen_ok hmw] at h
        obtain ⟨-, rfl⟩ := Prod.mk.injEq .. |>.mp h
        have hfr := dataMemWrite_frame (svSetupState f)
        rw [hmw] at hfr
        simp only at hfr
        obtain ⟨w1, w2, w3, w4, -, -, wlk, -, -⟩ := hfr
        obtain ⟨v1, v2, v3, v4, v5, v6, v7, v8⟩ :=
          svSetupState_spec f (by rw [fa]; exact g1) (by rw [fa]; exact g2)
            (by rw [fip]; exact g8) fdr fdw
        have hnj : ¬ isJumpTaken i p := by simp [isJumpTaken, o6]
        refine ⟨by simp [w1, v1, fa, g1], by simp [w1, v1, fa, g2],
                by simp, by simp [w3, v4], by simp,
                by simp [w4, v2, fip, g7],
                by simp [w4, v2, fip, g8], ?_,
                fun htk => absurd htk hnj,
                fun _ => ⟨by simp [wlk, v7, flk, hlk], by simp [w4, v2, fip]⟩,
                fun _ _ _ _ _ htk => absurd htk hnj⟩
        simp only [svCloseState_addrReg_writeO]
        rw [w2, v6]
        simp [o6, hnj]
  by_cases o7 : i.operation = "JMP"
  · rw [performOp_JMP hpi o7] at h
    have htk : isJumpTaken i p := Or.inl o7
    obtain ⟨j1, j2, j3, j4, j5, j6, j7, j8, j9, j10, j11⟩ :=
      jmpOp_ok_spec p t i hg' hpi h
    refine ⟨j1, j2, j3, j4, j5, j6, j7, ?_, fun _ => ⟨j9, j10⟩,
            fun hn => absurd htk hn,
            fun d' v' hd' hft' hv' _ => by rw [j10]; exact j11 d' v' hd' hft' hv'⟩
    rw [j8]
    simp [htk]
  by_cases o8 : i.operation = "JZ"
  · rw [performOp_JZ hpi o8] at h
    unfold jzOp at h
    by_cases hz : p.acc.num = 0
    · rw [if_pos hz] at h
      have htk : isJumpTaken i p := Or.inr (Or.inl ⟨o8, hz⟩)
      obtain ⟨j1, j2, j3, j4, j5, j6, j7, j8, j9, j10, j11⟩ :=
        jmpOp_ok_spec p t i hg' hpi h
      refine ⟨j1, j2, j3, j4, j5, j6, j7, ?_, fun _ => ⟨j9, j10⟩,
              fun hn => absurd htk hn,
              fun d' v' hd' hft' hv' _ => by rw [j10]; exact j11 d' v' hd' hft' hv'⟩
      rw [j8]
      simp [htk]
    · rw [if_neg hz] at h
      obtain ⟨-, rfl⟩ := Prod.mk.injEq .. |>.mp h
      have hnj : ¬ isJumpTaken i p := by
        simp [isJumpTaken, o8, hz]
      refine ⟨g1, g2, g5, g6, g3, g7, g8, ?_, fun htk => absurd htk hnj,
              fun _ => ⟨hlk, rfl⟩,
              fun _ _ _ _ _ htk => absurd htk hnj⟩
      rw [g4]
      simp [o8, hnj]
  by_cases o9 : i.operation = "JP"
  · rw [performOp_JP hpi o9] at h
    unfold jpOp at h
    by_cases hz : 0 < p.acc.num
    · rw [if_pos hz] at h
      have htk : isJumpTaken i p := Or.inr (Or.inr (Or.inl ⟨o9, hz⟩))
      obtain ⟨j1, j2, j3, j4, j5, j6, j7, j8, j9, j10, j11⟩ :=
        jmpOp_ok_spec p t i hg' hpi h
      refine ⟨j1, j2, j3, j4, j5, j6, j7, ?_, fun _ => ⟨j9, j10⟩,
              fun hn => absurd htk hn,
              fun d' v' hd' hft' hv' _ => by rw [j10]; exact j11 d' v' hd' hft' hv'⟩
      rw [j8]
      simp [htk]
    · rw [if_neg hz] at h
      obtain ⟨-, rfl⟩ := Prod.mk.injEq .. |>.mp h
      have hnj : ¬ isJumpTaken i p := by
        simp [isJumpTaken, o9, hz]
      refine ⟨g1, g2, g5, g6, g3, g7, g8, ?_, fun htk => absurd htk hnj,
              fun _ => ⟨hlk, rfl⟩,
              fun _ _ _ _ _ htk => absurd htk hnj⟩
      rw [g4]
      simp [o9, hnj]
  by_cases o10 : i.operation = "JN"
  · rw [performOp_JN hpi o10] at h
    unfold jnOp at h
    by_cases hz : p.acc.num < 0
    · rw [if_pos hz] at h
      have htk : isJumpTaken i p := Or.inr (Or.inr (Or.inr ⟨o10, hz⟩))
      obtain ⟨j1, j2, j3, j4, j5, j6, j7, j8, j9, j10, j11⟩ :=
        jmpOp_ok_spec p t i hg' hpi h
      refine ⟨j1, j2, j3, j4, j5, j6, j7, ?_, fun _ => ⟨j9, j10⟩,
              fun hn => absurd htk hn,
              fun d' v' hd' hft' hv' _ => by rw [j10]; exact j11 d' v' hd' hft' hv'⟩
      rw [j8]
      simp [htk]
    · rw [if_neg hz] at h
      obtain ⟨-, rfl⟩ := Prod.mk.injEq .. |>.mp h
      have hnj : ¬ isJumpTaken i p := by
        simp [isJumpTaken, o10, hz]
      refine ⟨g1, g2, g5, g6, g3, g7, g8, ?_, fun htk => absurd htk hnj,
              fun _ => ⟨hlk, rfl⟩,
              fun _ _ _ _ _ htk => absurd htk hnj⟩
      rw [g4]
      simp [o10, hnj]
  by_cases o11 : i.operation = "HLT"
  · rw [performOp_HLT hpi o11] at h
    obtain ⟨-, rfl⟩ := Prod.mk.injEq .. |>.mp h
    obtain ⟨hip, ha, hd, har, hlk2, -⟩ := hltOp_spec p
    have hnj : ¬ isJumpTaken i p := by simp [isJumpTaken, o11]
    refine ⟨by rw [ha]; exact g1, by rw [ha]; exact g2, by rw [hd]; exact g5,
            by rw [hd]; exact g6, by rw [har]; exact g3, by rw [hip]; exact g7,
            by rw [hip]; exact g8, ?_, fun htk => absurd htk hnj,
            fun _ => ⟨by rw [hlk2, hlk], by rw [hip]⟩,
            fun _ _ _ _ _ htk => absurd htk hnj⟩
    rw [har, g4]
    simp [o11, hnj]
  rw [performOp_some hpi, if_neg o1, if_neg o2, if_neg o3, if_neg o4, if_neg o5,
      if_neg o6, if_neg o7, if_neg o8, if_neg o9, if_neg o10, if_neg o11] at h
  simp at h

/-! ## C1 — the advance law -/

/-- C1: for every successful step executing a non-jump opcode (INC, INV,
ADD, SUB, LD, SV, HLT, or a not-taken JZ/JP/JN), the instruction pointer
afterwards is the 16-bit truncation of its old value plus one — in
particular it advances by exactly 1 modulo the `2^16` address space; for
JMP and taken JZ/JP/JN it instead equals the operand value fetched by
`_fetch_data` (sitting in the data register), with no extra increment in
that step: in `const` mode it is exactly the `Number(16, data)` value. -/
theorem advance_law (s s' : MState) (i : Instr)
    (hw : wf s) (hg : gatesClosed s) (hh : s.halted = false)
    (hc : instrCell s = .ok (some i))
    (hs : step s = (.ok (), s')) :
    (¬ isJumpTaken i s →
       s'.ip.num = trunc16 (s.ip.num + 1) ∧
       s'.ip.num ≡ s.ip.num + 1 [ZMOD 65536]) ∧
    (isJumpTaken i s →
       s'.ip.num = s'.dataReg.num ∧
       ∀ d v, i.data = some d → i.fetch_type = some "const" →
         pySetValue 16 d = .ok v → s'.ip.num = v) := by
  obtain ⟨-, -, -, hip, -, -⟩ := hw
  obtain ⟨g1, g2, g3, g4, g5, g6, g7, g8⟩ := hg
  rw [step_eq s hh (some i) hc] at hs
  rcases hp : performOp (prep s (some i)) with ⟨r, t⟩
  rw [hp] at hs
  cases r with
  | error e =>
    rw [afterPerform_err] at hs
    simp at hs
  | ok u =>
    rw [afterPerform_ok] at hs
    obtain ⟨-, rfl⟩ := Prod.mk.injEq .. |>.mp hs
    have hgp : gatesClosed (prep s (some i)) := ⟨g1, g2, g3, g4, g5, g6, rfl, g8⟩
    obtain ⟨q1, q2, q3, q4, q5, q6, q7, q8, qtk, qntk, qct⟩ :=
      performOp_ok_spec (prep s (some i)) t i hgp rfl rfl hp
    constructor
    · intro hnt
      have hnt2 : ¬ isJumpTaken i (prep s (some i)) := hnt
      obtain ⟨hlk, hipn⟩ := qntk hnt2
      rw [nextOp_adv hlk q1 q3 q5 (by rw [hipn, prep_ip_num]; exact hip)]
      refine ⟨?_, ?_⟩
      · show trunc16 (t.ip.num + 1) = trunc16 (s.ip.num + 1)
        rw [hipn, prep_ip_num]
      · show trunc16 (t.ip.num + 1) ≡ s.ip.num + 1 [ZMOD 65536]
        rw [hipn, prep_ip_num]
        exact trunc16_modEq (s.ip.num + 1)
    · intro htk
      have htk2 : isJumpTaken i (prep s (some i)) := htk
      obtain ⟨hlk, hipd⟩ := qtk htk2
      rw [nextOp_skip hlk]
      exact ⟨hipd, fun d v hd hft hv => qct d v hd hft hv htk2⟩

/-- A machine about to execute INC at address 0. -/
def advDemo : MState :=
  { acc := {}, addrReg := {}, dataReg := {}, ip := {},
    instrMem := fun n => if n = 0 then some { operation := "INC" } else none,
    dataMem := fun _ => some 0,
    inputBuf := [], inputPtr := 0, output := [] }

theorem advance_law_witness :
    wf advDemo ∧ gatesClosed advDemo ∧ advDemo.halted = false ∧
    ¬ isJumpTaken { operation := "INC" } advDemo ∧
    (step advDemo).2.ip.num = trunc16 (advDemo.ip.num + 1) ∧
    (step advDemo).2.ip.num ≡ advDemo.ip.num + 1 [ZMOD 65536] := by
  have hwd : wf advDemo :=
    wf_of_simple advDemo (by decide) (by decide) (by decide) (by decide) rfl rfl
  have hnt : ¬ isJumpTaken { operation := "INC" } advDemo := by
    unfold isJumpTaken
    decide
  have h := (advance_law advDemo (step advDemo).2 { operation := "INC" }
    hwd (by decide) rfl rfl rfl).1 hnt
  exact ⟨hwd, by decide, rfl, hnt, h.1, h.2⟩

/-! ## C4 — gate discipline after a step (corrected) -/

/-- A machine about to execute `ADD abs_mem 5` from a fully gates-closed
state. -/
def leakDemo : MState :=
  { acc := {}, addrReg := {}, dataReg := {}, ip := {},
    instrMem := fun n =>
      if n = 0 then
        some { operation := "ADD", fetch_type := some "abs_mem", data := some 5 }
      else none,
    dataMem := fun _ => some 0,
    inputBuf := [], inputPtr := 0, output := [] }

set_option maxRecDepth 100000 in
/-- The claim fails: `_fetch_from_mem` opens the address register's write
gate and never closes it, so a successfully completed `ADD abs_mem` step
from an all-gates-closed state returns with that gate still open. -/
theorem gate_leak_cex :
    gatesClosed leakDemo ∧ (step leakDemo).1 = .ok () ∧
    (step leakDemo).2.addrReg.writeO = true :=
  ⟨by decide, rfl, rfl⟩

/-- C4 amended: a successfully completed `step()` from an all-gates-closed
state closes every gate it opened — except the address register's write
gate, which is left open exactly when the executed instruction both routes
its operand through data memory (`abs_mem` or `rel_mem`) and is an ADD, a
SUB, or a taken jump (`_fetch_from_mem` omits the `close_write`; the LD and
SV handlers close the gate again themselves). -/
theorem gates_after_step (s s' : MState) (i : Instr)
    (hw : wf s) (hg : gatesClosed s) (hh : s.halted = false)
    (hc : instrCell s = .ok (some i))
    (hs : step s = (.ok (), s')) :
    s'.acc.readO = false ∧ s'.acc.writeO = false ∧
    s'.dataReg.readO = false ∧ s'.dataReg.writeO = false ∧
    s'.addrReg.readO = false ∧
    s'.ip.readO = false ∧ s'.ip.writeO = false ∧
    (s'.addrReg.writeO = true ↔
      ((i.operation = "ADD" ∨ i.operation = "SUB" ∨ isJumpTaken i s) ∧
       (i.fetch_type = some "abs_mem" ∨ i.fetch_type = some "rel_mem"))) := by
  obtain ⟨-, -, -, hip, -, -⟩ := hw
  obtain ⟨g1, g2, g3, g4, g5, g6, g7, g8⟩ := hg
  rw [step_eq s hh (some i) hc] at hs
  rcases hp : performOp (prep s (some i)) with ⟨r, t⟩
  rw [hp] at hs
  cases r with
  | error e =>
    rw [afterPerform_err] at hs
    simp at hs
  | ok u =>
    rw [afterPerform_ok] at hs
    obtain ⟨-, rfl⟩ := Prod.mk.injEq .. |>.mp hs
    have hgp : gatesClosed (prep s (some i)) := ⟨g1, g2, g3, g4, g5, g6, rfl, g8⟩
    obtain ⟨q1, q2, q3, q4, q5, q6, q7, q8, qtk, qntk, -⟩ :=
      performOp_ok_spec (prep s (some i)) t i hgp rfl rfl hp
    by_cases hlk : t.lockInc = true
    · rw [nextOp_skip hlk]
      exact ⟨q1, q2, q3, q4, q5, q6, q7, q8⟩
    · rw [Bool.not_eq_true] at hlk
      obtain ⟨-, hipn⟩ := qntk (fun htk => by
        obtain ⟨h1, -⟩ := qtk htk
        rw [hlk] at h1
        cases h1)
      rw [nextOp_adv hlk q1 q3 q5 (by rw [hipn, prep_ip_num]; exact hip)]
      refine ⟨by simpa using q1, by simpa using q2, by simpa using q3,
              by simpa using q4, by simpa using q5, rfl, rfl, ?_⟩
      simpa using q8

set_option maxRecDepth 100000 in
theorem gates_after_step_witness :
    wf leakDemo ∧ gatesClosed leakDemo ∧ leakDemo.halted = false ∧
    (step leakDemo).2.acc.readO = false ∧
    (step leakDemo).2.acc.writeO = false ∧
    (step leakDemo).2.dataReg.readO = false ∧
    (step leakDemo).2.dataReg.writeO = false ∧
    (step leakDemo).2.addrReg.readO = false ∧
    (step leakDemo).2.ip.readO = false ∧
    (step leakDemo).2.ip.writeO = false ∧
    (step leakDemo).2.addrReg.writeO = true := by
  have hwd : wf leakDemo :=
    wf_of_simple leakDemo (by decide) (by decide) (by decide) (by decide) rfl rfl
  have h := gates_after_step leakDemo (step leakDemo).2
    { operation := "ADD", fetch_type := some "abs_mem", data := some 5 }
    hwd (by decide) rfl rfl rfl
  exact ⟨hwd, by decide, rfl, h.1, h.2.1, h.2.2.1, h.2.2.2.1, h.2.2.2.2.1,
         h.2.2.2.2.2.1, h.2.2.2.2.2.2.1,
         (h.2.2.2.2.2.2.2).mpr ⟨Or.inl rfl, Or.inl rfl⟩⟩

end Vm
